import Mathlib

/-!
Verification of the SPyC_Writer SPC binary encoder.

This file gives a shallow embedding of the encoder components of the
SPyC_Writer package (src/SPyC_Writer) and proves properties of them:

* `fit_byte_block`          — common.py
* `spcDate`                 — SPCDate.py (`SPCDate.__init__` / `get`)
* `generate_subheader`      — SPCSubheader.py (`SPCSubheader.generate_subheader`)
* `generate_log_header`     — SPCLog.py (`SPCLog.generate_log_header`)
* `generate_header`         — SPCHeader.py (`SPCHeader.generate_header`,
                              `SPCHeader.calc_log_offset`)
* `write_spc_file`          — SPCFileWriter.py (`SPCFileWriter.write_spc_file`)

Modelling conventions:

* A byte string is a `List Nat`, each element a byte value (< 256 by
  construction of the encoders).
* Python `int.to_bytes(w, "little")` / `struct.pack` of integers is modelled
  by little-endian digit extraction of the value taken mod 2^(8*w).  Python
  raises `OverflowError` / `struct.error` when the value does not fit; the
  theorems that depend on a field's value carry an in-range hypothesis so
  the wrapped encoding agrees with Python exactly on the covered inputs.
* IEEE float payloads (`struct.pack` formats "e"/"f"/"d", `ndarray.tobytes`)
  are modelled by an abstract `FloatCodec`: a triple of encoding functions on
  exact rational values whose outputs have the fixed widths 2/4/8.  All
  theorems are proved for every codec, so in particular for the IEEE one;
  witnesses instantiate the concrete `zeroCodec`.
* Python exceptions and `return False` paths are modelled with `Except`.
-/

/-- Little-endian byte list of width `w` for the value `n` (low byte first).
Models Python `n.to_bytes(w, byteorder="little")` for in-range `n`; Python
raises `OverflowError` when `256^w ≤ n`, here the value wraps mod `256^w`. -/
def natLE (w n : Nat) : List Nat :=
  match w with
  | 0 => []
  | w' + 1 => n % 256 :: natLE w' (n / 256)

/-- One unsigned byte: `x.to_bytes(1, "little")`. -/
def u8 (n : Nat) : List Nat := natLE 1 n

/-- `struct.pack("<H", n)`: unsigned 16-bit little endian. -/
def u16le (n : Nat) : List Nat := natLE 2 n

/-- `n.to_bytes(4, "little")`: unsigned 32-bit little endian. -/
def u32le (n : Nat) : List Nat := natLE 4 n

/-- `struct.pack("<b", z)` / `to_bytes(1, signed=True)`: signed byte,
two's complement. -/
def i8le (z : Int) : List Nat := [(z % 256).toNat]

/-- `struct.pack("l", z)`: signed 32-bit little endian, two's complement
(standard 4-byte size of the C long used by the format). -/
def i32le (z : Int) : List Nat := natLE 4 (z % (2 ^ 32 : Int)).toNat

/-- Value of a little-endian byte list (low byte first). -/
def leVal : List Nat → Nat
  | [] => 0
  | b :: bs => b + 256 * leVal bs

/-- Abstract encoder for IEEE float payloads, on exact rational values.
`f16`/`f32`/`f64` model `struct.pack` formats "e"/"f"/"d" (and
`ndarray.astype(np.single).tobytes` element encoding for `f32`); the only
facts used about them are their fixed output widths. -/
structure FloatCodec where
  f16 : ℚ → List Nat
  f32 : ℚ → List Nat
  f64 : ℚ → List Nat
  f16_len : ∀ q, (f16 q).length = 2
  f32_len : ∀ q, (f32 q).length = 4
  f64_len : ∀ q, (f64 q).length = 8

/-- A concrete instance of `FloatCodec` used to evaluate the development on
closed inputs (witnesses hold for every codec, in particular this one). -/
def zeroCodec : FloatCodec where
  f16 := fun _ => [0, 0]
  f32 := fun _ => [0, 0, 0, 0]
  f64 := fun _ => [0, 0, 0, 0, 0, 0, 0, 0]
  f16_len := fun _ => rfl
  f32_len := fun _ => rfl
  f64_len := fun _ => rfl

/-! ## common.py -/

-- Field width constants of common.py.
def RES_DESC_LIMIT : Nat := 9
def SRC_INSTRUMENT_LIMIT : Nat := 9
def MEMO_LIMIT : Nat := 130
def AXES_LIMIT : Nat := 30
def METHOD_FILE_LIMIT : Nat := 48
def SPARE_LIMIT : Nat := 8
def RESERVE_LIMIT : Nat := 187
def LOG_RESERVE_LIMIT : Nat := 44

/-- common.py `fit_byte_block(field, limit)`: the while loop right-pads with
zero bytes up to `limit`; if the input is longer than `limit` it is truncated
to `limit` and the last kept byte is overwritten with 0 (`field[-1] = 0`).
(For `limit = 0` with a nonempty input Python raises `IndexError`; every use
in the package has `limit ≥ 9` and the theorems assume `1 ≤ limit`.) -/
def fit_byte_block (field : List Nat) (limit : Nat) : List Nat :=
  let padded := field ++ List.replicate (limit - field.length) 0
  if limit < padded.length then (padded.take limit).set (limit - 1) 0 else padded

/-- Strip trailing zero bytes (the reader-side trailing-null stripping the
spec describes for text fields). -/
def stripTrailingNulls (l : List Nat) : List Nat :=
  (l.reverse.dropWhile (fun b => b = 0)).reverse

/-! ## SPCEnums.py — the file-type flag bits (SPCFileType) -/

def TMULTI : Nat := 4
def TXYXYS : Nat := 64
def TXVALS : Nat := 128

/-! ## SPCDate.py -/

/-- A calendar timestamp as the date packer consumes it (the relevant five
fields of a Python `datetime`). -/
structure DateTime where
  year : Nat
  month : Nat
  day : Nat
  hour : Nat
  minute : Nat

/-- The packed 32-bit date value of SPCDate.py:
`minutes | (hour << 6) | (day << 11) | (month << 16) | (year << 20)`
(left-associated bitwise or, no masking of the inputs). -/
def spcDateVal (t : DateTime) : Nat :=
  ((((t.minute ||| (t.hour <<< 6)) ||| (t.day <<< 11)) ||| (t.month <<< 16)) ||| (t.year <<< 20))

/-- SPCDate.py `SPCDate.__init__` + `get`: `time is None` yields the all-zero
sentinel, otherwise the packed bitfield, 4 bytes little endian. -/
def spcDate : Option DateTime → List Nat
  | none => u32le 0
  | some t => u32le (spcDateVal t)

/-! ## SPCSubheader.py -/

/-- The subfile header record (`SPCSubheader` dataclass).  `Option` fields
model the `None` defaults of the dataclass. -/
structure SPCSubheader where
  subfile_flags : Nat := 0
  exponent : Int := -128
  sub_index : Nat := 0
  start_z : ℚ := 0
  end_z : Option ℚ := none
  noise_value : Option ℚ := none
  num_points : Option Int := none
  num_coadded : Option Int := none
  w_axis_value : ℚ := 0

/-- The byte string assembled by `SPCSubheader.generate_subheader`
(the `b''.join([...])` before the length check). -/
def generate_subheader_bytes (c : FloatCodec) (s : SPCSubheader) : List Nat :=
  u8 s.subfile_flags
    ++ i8le s.exponent
    ++ u16le s.sub_index
    ++ c.f32 s.start_z
    ++ (match s.end_z with
        | none => c.f32 s.start_z
        | some v => c.f32 v)
    ++ (match s.noise_value with
        | none => [0, 0, 0, 0]
        | some v => c.f32 v)
    ++ (match s.num_points with
        | none => [0, 0, 0, 0]
        | some n => i32le n)
    ++ (match s.num_coadded with
        | none => [0, 0, 0, 0]
        | some n => i32le n)
    ++ c.f32 s.w_axis_value
    ++ [0, 0, 0, 0]

/-- SPCSubheader.py `generate_subheader`: raises
`RuntimeError("Subheader invalid length")` when the assembled length is not
32, otherwise returns the 32 bytes. -/
def generate_subheader (c : FloatCodec) (s : SPCSubheader) : Except String (List Nat) :=
  let subheader := generate_subheader_bytes c s
  if subheader.length ≠ 32 then .error "Subheader invalid length" else .ok subheader

/-! ## SPCLog.py -/

/-- Python 3 `round(q)` on an exact value: round half to even. -/
def pyRound (q : ℚ) : ℤ :=
  if q - ⌊q⌋ > 1 / 2 then ⌊q⌋ + 1
  else if q - ⌊q⌋ < 1 / 2 then ⌊q⌋
  else if ⌊q⌋ % 2 = 0 then ⌊q⌋ else ⌊q⌋ + 1

/-- SPCLog.py `SPCLog.generate_log_header`, with `log_data` the raw payload
bytes and `log_text` the UTF-8 bytes of the text (`log_text.encode()`).
The division `block_size/4096` is Python float division of small exact
integers, modelled exactly. -/
def generate_log_header (log_data log_text : List Nat) : List Nat :=
  let text_len := log_text.length
  let data_len := log_data.length
  let block_size := 64 + text_len + data_len
  let mem_block : ℤ := 4096 * pyRound ((block_size : ℚ) / 4096)
  let text_offset := 64 + data_len
  i32le block_size
    ++ i32le mem_block
    ++ i32le text_offset
    ++ i32le data_len
    ++ [0, 0, 0, 0]
    ++ List.replicate LOG_RESERVE_LIMIT 0

/-! ## SPCHeader.py -/

/-- The numpy arrays the writer hands around: a 1-D array of values or a
2-D array of rows.  (`len` of a 2-D array is its row count, `size` its total
element count, matching numpy.) -/
inductive NDArray where
  | one (data : List ℚ)
  | two (rows : List (List ℚ))

/-- `len(a)` of numpy. -/
def NDArray.len : NDArray → Nat
  | .one d => d.length
  | .two r => r.length

/-- `a.size` of numpy. -/
def NDArray.size : NDArray → Nat
  | .one d => d.length
  | .two r => (r.map List.length).sum

/-- `a[i]` viewed as a row.  On a 2-D array this is row `i` (Python raises
`IndexError` out of range; the theorems' hypotheses keep indices in range).
The encoder only row-indexes 2-D arrays — on a 1-D array Python would yield
a scalar and the surrounding code would raise — so the `one` case is
unexercised by every theorem below. -/
def NDArray.row : NDArray → Nat → List ℚ
  | .one d, i => [d.getD i 0]
  | .two r, i => r.getD i []

/-- `np.amin` — minimum over all elements (unused default 0 for the empty
array, where Python raises; the encoder only calls it on nonempty arrays). -/
def NDArray.amin : NDArray → ℚ
  | .one d => d.foldr min (d.getD 0 0)
  | .two r => (r.map fun row => row.foldr min (row.getD 0 0)).foldr min 0

/-- `np.amax` — maximum over all elements (same conventions as `amin`). -/
def NDArray.amax : NDArray → ℚ
  | .one d => d.foldr max (d.getD 0 0)
  | .two r => (r.map fun row => row.foldr max (row.getD 0 0)).foldr max 0

/-- The file header record (`SPCHeader` dataclass of SPCHeader.py).  Text
fields hold the UTF-8 bytes of the Python strings.  `calib_plus_one`,
`sample_inject`, `data_mul` and `method_file` hold raw byte defaults in the
source (`b"\x00"`, `b"\x00\x00"`, `b"\x00\x00\x00\x00"`, `b"\x00"`) and are
modelled as byte lists with those defaults. -/
structure SPCHeader where
  file_type : Nat
  num_points : Nat
  compress_date : Option DateTime
  x_values : NDArray := .one []
  y_values : NDArray := .one []
  file_version : Nat := 0x4B
  experiment_type : Nat := 0
  exponent : Int := -128
  first_x : ℚ := 0
  last_x : ℚ := 0
  num_subfiles : Nat := 0
  x_units : Nat := 0
  y_units : Nat := 0
  z_units : Nat := 0
  post_disposition : Nat := 0
  res_desc : List Nat := []
  src_instrument_desc : List Nat := []
  peak_point : ℚ := 0
  memo : List Nat := []
  custom_axes : List (List Nat) := []
  spectra_mod_flag : Int := 0
  process_code : Nat := 1
  calib_plus_one : List Nat := [0]
  sample_inject : List Nat := [0, 0]
  data_mul : List Nat := [0, 0, 0, 0]
  method_file : List Nat := [0]
  z_subfile_inc : ℚ := 1
  num_w_planes : Int := 0
  w_plane_inc : ℚ := 0
  w_units : Nat := 0
  generate_log : Bool := false

/-- `SPCHeader.calc_log_offset`: the byte offset of the log block assuming
no directory (512 header + 32 per subheader + the payload bytes of the
selected layout). -/
def calc_log_offset (file_type num_subfiles : Nat) (x_values y_values : NDArray) : Nat :=
  let lo := 512 + num_subfiles * 32
  let lo := if file_type &&& TXVALS ≠ 0 ∧ file_type &&& TXYXYS = 0 then
      lo + x_values.len * 4
    else lo
  if file_type &&& TMULTI ≠ 0 ∧ file_type &&& TXYXYS ≠ 0 then
    lo + ((List.range x_values.len).map fun idx =>
      (x_values.row idx).length * 4 + (y_values.row idx).length * 4).sum
  else if file_type &&& TMULTI ≠ 0 then
    lo + ((List.range y_values.len).map fun idx =>
      (y_values.row idx).length * 4 * num_subfiles).sum
  else
    lo + y_values.len * 4 * num_subfiles

/-- The `Bnum_points` bytes of `generate_header` after both assignments:
zero for XYXYXY layouts unless the multi + x-values branch overwrites them
with the directory offset (`calc_log_offset` before the 12-byte-per-entry
directory is added). -/
def headerNumPointsBytes (h : SPCHeader) : List Nat :=
  let b := if h.file_type &&& TXYXYS = 0 then u32le h.num_points else [0, 0, 0, 0]
  if h.file_type &&& TMULTI ≠ 0 ∧ h.file_type &&& TXVALS ≠ 0 ∧ h.file_type &&& TXYXYS ≠ 0 then
    u32le (calc_log_offset h.file_type h.num_subfiles h.x_values h.y_values)
  else b

/-- The byte string assembled by `SPCHeader.generate_header`
(`b"".join(field_bytes)` before the length check).  Notes kept from the
source: the custom-axes block is the null-joined axis strings fitted to 30
bytes (the source reads them through `custom_axes.default_factory()`, so at
run time the joined list is empty unless a caller smuggles a
`dataclasses.field` object through — the fitted width, hence everything
proved here, is 30 bytes either way); `Blog_offset` is unconditionally
overwritten with four zero bytes just after the `generate_log` conditional,
so the computed log offset never reaches the output. -/
def generate_header_bytes (c : FloatCodec) (h : SPCHeader) : List Nat :=
  u8 h.file_type
    ++ u8 h.file_version
    ++ u8 h.experiment_type
    ++ i8le h.exponent
    ++ headerNumPointsBytes h
    ++ c.f64 h.first_x
    ++ c.f64 h.last_x
    ++ i32le h.num_subfiles
    ++ u8 h.x_units
    ++ u8 h.y_units
    ++ u8 h.z_units
    ++ u8 h.post_disposition
    ++ spcDate h.compress_date
    ++ fit_byte_block h.res_desc RES_DESC_LIMIT
    ++ fit_byte_block h.src_instrument_desc SRC_INSTRUMENT_LIMIT
    ++ c.f16 h.peak_point
    ++ List.replicate (4 * SPARE_LIMIT) 0
    ++ fit_byte_block h.memo MEMO_LIMIT
    ++ fit_byte_block (List.intercalate [0] h.custom_axes) AXES_LIMIT
    ++ [0, 0, 0, 0]
    ++ i32le h.spectra_mod_flag
    ++ u8 h.process_code
    ++ h.calib_plus_one
    ++ h.sample_inject
    ++ h.data_mul
    ++ fit_byte_block h.method_file METHOD_FILE_LIMIT
    ++ c.f32 h.z_subfile_inc
    ++ i32le h.num_w_planes
    ++ c.f32 h.w_plane_inc
    ++ u8 h.w_units
    ++ List.replicate RESERVE_LIMIT 0

/-- SPCHeader.py `generate_header`: raises
`RuntimeError("Header incorrect length")` when the assembled length is not
512, otherwise returns the 512 bytes.  (The inlined copy of this method in
SPCFileWriter.py guards only `len < 512`; the assembled length is proved to
be exactly 512 below, so the two guards are indistinguishable on every
reachable input.) -/
def generate_header (c : FloatCodec) (h : SPCHeader) : Except String (List Nat) :=
  let file_header := generate_header_bytes c h
  if file_header.length ≠ 512 then .error "Header incorrect length" else .ok file_header

/-! ## SPCFileWriter.py -/

/-- The outcomes of `SPCFileWriter.write_spc_file` short of the final file
I/O: `validation` models the logged `return False` input-rejection paths,
`typeError` an uncaught Python `TypeError` raised while encoding, and
`invariant` an uncaught `RuntimeError` from a header length check. -/
inductive WriteError where
  | validation (msg : String)
  | typeError (msg : String)
  | invariant (msg : String)
deriving DecidableEq

/-- The writer object state set up by `SPCFileWriter.__init__` (the fields
`write_spc_file` reads).  Text fields hold UTF-8 bytes; `log_text` holds
`self.log_text.encode()`. -/
structure SPCFileWriter where
  file_type : Nat
  num_pts : Nat := 0
  compress_date : Option DateTime := none
  file_version : Nat := 0x4B
  experiment_type : Nat := 0
  exponent : Int := 0
  x_units : Nat := 0
  y_units : Nat := 0
  z_units : Nat := 0
  res_desc : List Nat := []
  src_instrument_desc : List Nat := []
  custom_units : List (List Nat) := []
  memo : List Nat := []
  spectra_mod_flag : Int := 0
  z_subfile_inc : ℚ := 1
  num_w_planes : Int := 0
  w_plane_inc : ℚ := 1
  w_units : Nat := 0
  log_data : List Nat := []
  log_text : List Nat := []

/-- `SPCFileWriter.convert_points(arr, np.single)`: every element as packed
little-endian 32-bit floats, row-major for 2-D arrays. -/
def convert_points (c : FloatCodec) : NDArray → List Nat
  | .one d => (d.map c.f32).flatten
  | .two r => (r.map fun row => (row.map c.f32).flatten).flatten

/-- The per-trace Z resolution (`match len(z_values)` in the trace loop):
empty → 0, single element → broadcast, otherwise indexed with the
`try/except` defaulting out-of-range indexes to 0. -/
def zResolve (z_values : List ℚ) (i : Nat) : ℚ :=
  if z_values.length = 0 then 0
  else if z_values.length = 1 then z_values.getD 0 0
  else z_values.getD i 0

/-- One iteration of the trace loop of `write_spc_file`: the subfile bytes
appended for trace `i` (subfile header, then the payload the layout flags
select).  `points_count0` is the `points_count` computed before the loop
(for XYXYXY layouts the loop overwrites it with `len(y_values[i])`). -/
def traceSubfile (c : FloatCodec) (ft : Nat) (y_values x_values : NDArray)
    (z_values : List ℚ) (By_values : List Nat) (points_count0 i : Nat) : List Nat :=
  let points_count := if ft &&& TXYXYS ≠ 0 then (y_values.row i).length else points_count0
  let z_val := zResolve z_values i
  let sub_head := generate_subheader_bytes c
    { start_z := z_val, sub_index := i, num_points := some points_count, w_axis_value := 0 }
  if ft &&& TXYXYS ≠ 0 then
    sub_head ++ convert_points c (.one (x_values.row i)) ++ convert_points c (.one (y_values.row i))
  else if ft &&& TMULTI ≠ 0 then
    sub_head ++ convert_points c (.one (y_values.row i))
  else
    sub_head ++ By_values

/-- The trace loop of `write_spc_file` over the listed subfile indexes,
threading `(file_output, dir_pointers)`.  A nonempty `w_values` raises
`TypeError` at the top of the first iteration: the source computes
`w_values[math.floor(i/w_values(len))]`, and `w_values(len)` calls the
ndarray.  Each directory pointer is
`generate_dir_pointer(len(file_output), len(subfile), z_val)`:
offset u32, size u32, z f32, all little endian. -/
def traceLoop (c : FloatCodec) (ft : Nat) (y_values x_values : NDArray)
    (z_values w_values : List ℚ) (By_values : List Nat) (points_count0 : Nat) :
    List Nat → List Nat × List (List Nat) → Except WriteError (List Nat × List (List Nat))
  | [], st => .ok st
  | i :: rest, (file_output, dir_pointers) =>
    if w_values ≠ [] then
      .error (.typeError "TypeError: ndarray is not callable in w_values[math.floor(i/w_values(len))]")
    else
      let subfile := traceSubfile c ft y_values x_values z_values By_values points_count0 i
      let pointer := u32le file_output.length ++ u32le subfile.length
        ++ c.f32 (zResolve z_values i)
      traceLoop c ft y_values x_values z_values w_values By_values points_count0 rest
        (file_output ++ subfile, dir_pointers ++ [pointer])

/-- The header record `SPCFileWriter.write_spc_file` constructs
(`header = SPCHeader(file_type=..., num_points=..., ...)` in the source,
extracted here as a function of the writer state and derived counts —
`first_x`/`last_x` are the values the source computes just before).  The
source does not pass `exponent`, `peak_point`, `post_disposition`,
`process_code`, `method_file` or the raw internal-use fields, so those keep
their dataclass defaults. -/
def writeHeader (w : SPCFileWriter) (y_values x_values : NDArray)
    (points_count num_traces : Nat) : SPCHeader :=
  { file_type := w.file_type
    num_points := points_count
    compress_date := w.compress_date
    x_values := x_values
    y_values := y_values
    experiment_type := w.experiment_type
    first_x := if x_values.size = 0 then 0 else x_values.amin
    last_x := if x_values.size = 0 then (y_values.len : ℚ) else x_values.amax
    num_subfiles := num_traces
    x_units := w.x_units
    y_units := w.y_units
    z_units := w.z_units
    res_desc := w.res_desc
    src_instrument_desc := w.src_instrument_desc
    memo := w.memo
    custom_axes := w.custom_units
    spectra_mod_flag := w.spectra_mod_flag
    z_subfile_inc := w.z_subfile_inc
    num_w_planes := w.num_w_planes
    w_plane_inc := w.w_plane_inc
    w_units := w.w_units
    generate_log := w.log_data ≠ [] ∨ w.log_text ≠ [] }

/-- `SPCFileWriter.write_spc_file` (SPCFileWriter.py), up to but not
including the final `open`/`write` (success returns the assembled byte
stream instead of writing it).  Faithful transcription notes:

* `x_values.size == 0` with `self.file_type == SPCFileType.TXVALS` (exact
  equality against the lone flag, not a bit test) is the only missing-X
  rejection; otherwise an empty X derives `first_x = 0`,
  `last_x = len(y_values)`.
* For multi-trace layouts without TXYXYS the source assigns
  `self.exponent = self.calculate_exponent(x_values)`; `calculate_exponent`
  requires the two positional arguments `(x_values, y_values)`, so this call
  raises `TypeError` before any further work.
* A nonempty `w_values` whose length does not divide the trace count is
  rejected (`return False`) before any encoding.
* The header record receives the writer fields; its `exponent` is the
  dataclass default −128 (the source never passes `self.exponent` on). -/
def write_spc_file (c : FloatCodec) (w : SPCFileWriter) (y_values : NDArray)
    (x_values : NDArray := .one []) (z_values : List ℚ := [])
    (w_values : List ℚ := []) : Except WriteError (List Nat) := do
  if x_values.size = 0 ∧ w.file_type = TXVALS then
    throw (.validation "no x values received but file type is a shared x values type")
  let points_count ←
    if w.file_type &&& TMULTI = 0 then
      pure y_values.len
    else if w.file_type &&& TMULTI ≠ 0 ∧ w.file_type &&& TXYXYS = 0 then
      throw (.typeError
        "TypeError: calculate_exponent() missing 1 required positional argument: y_values")
    else
      pure 0
  let num_traces := match y_values with
    | .one _ => 1
    | .two rows => rows.length
  if w_values.length ≠ 0 ∧ num_traces % w_values.length ≠ 0 then
    throw (.validation "w_values should divide evenly into the number of sub files")
  let generate_log := w.log_data ≠ [] ∨ w.log_text ≠ []
  let By_values := convert_points c y_values
  let Bx_values := convert_points c x_values
  let header : SPCHeader := writeHeader w y_values x_values points_count num_traces
  let file_header ← (generate_header c header).mapError WriteError.invariant
  let file_output := file_header
  let file_output := if w.file_type &&& TXVALS ≠ 0 ∧ w.file_type &&& TXYXYS = 0 then
      file_output ++ Bx_values
    else file_output
  let (file_output, dir_pointers) ← traceLoop c w.file_type y_values x_values z_values
    w_values By_values points_count (List.range num_traces) (file_output, [])
  let file_output := if w.file_type &&& TXVALS ≠ 0 ∧ w.file_type &&& TXYXYS ≠ 0 then
      file_output ++ dir_pointers.flatten
    else file_output
  let file_output := if generate_log then
      file_output ++ generate_log_header w.log_data w.log_text ++ w.log_data ++ w.log_text
    else file_output
  return file_output

/-- `SPCFileWriter.calculate_exponent(x_values, y_values)` in exact
arithmetic: starts from `max(abs(amax(x)), abs(amax(y))) * 2**32` and halves
until the product no longer exceeds `2**32`, raising once the count passes
127.  (The loop body runs at most 128 times before raising, so the fuel of
129 is never exhausted.)  The one call site in `write_spc_file` passes a
single argument, so this function is never successfully invoked. -/
def calcExpGo (product : ℚ) (exponent : Nat) : Nat → Except String Nat
  | 0 => .error "out of fuel (unreachable: the exponent bound raises first)"
  | fuel + 1 =>
    if product > 2 ^ 32 then
      if exponent + 1 > 127 then
        .error "exponent is only a signed byte. Cannot store greater than 127"
      else calcExpGo (product / 2) (exponent + 1) fuel
    else .ok exponent

/-- See `calcExpGo`. -/
def calculate_exponent (x_values y_values : NDArray) : Except String Nat :=
  let max_num := max |x_values.amax| |y_values.amax|
  calcExpGo (max_num * 2 ^ 32) 0 129

/-! ## Derived closed forms used to state properties of `write_spc_file` -/

/-- The trailing log section of a written file: log header + binary payload
+ text payload when a log payload exists, nothing otherwise. -/
def logPart (w : SPCFileWriter) : List Nat :=
  if w.log_data ≠ [] ∨ w.log_text ≠ [] then
    generate_log_header w.log_data w.log_text ++ w.log_data ++ w.log_text
  else []

/-- The directory pointers accumulated by the trace loop, in closed form:
one `(offset u32, size u32, z f32)` entry per listed index, the offset
advancing by each subfile's length from `base`. -/
def dirPointersFrom (c : FloatCodec) (z_values : List ℚ) (sf : Nat → List Nat) :
    Nat → List Nat → List (List Nat)
  | _, [] => []
  | base, i :: rest =>
    (u32le base ++ u32le (sf i).length ++ c.f32 (zResolve z_values i))
      :: dirPointersFrom c z_values sf (base + (sf i).length) rest

/-- Total length of the subfiles with index below `i`. -/
def sizeSum (sf : Nat → List Nat) : Nat → Nat
  | 0 => 0
  | i + 1 => sizeSum sf i + (sf i).length

/-- Subfile `i` of an XYXYXY (independent-X) file: 32-byte subfile header
(z value, index, per-trace point count), then the trace's X then Y samples
as 32-bit floats. -/
def txyxysSubfile (c : FloatCodec) (xs ys : List (List ℚ)) (z_values : List ℚ)
    (i : Nat) : List Nat :=
  generate_subheader_bytes c
      { start_z := zResolve z_values i
        sub_index := i
        num_points := some ((ys.getD i []).length)
        w_axis_value := 0 }
    ++ ((xs.getD i []).map c.f32).flatten
    ++ ((ys.getD i []).map c.f32).flatten

/-- Byte size of subfile `i` of an XYXYXY file: 32-byte subfile header plus
4 bytes per X and per Y sample. -/
def txyxysSize (xs ys : List (List ℚ)) (i : Nat) : Nat :=
  32 + 4 * (xs.getD i []).length + 4 * (ys.getD i []).length

/-- Total size of the XYXYXY subfiles with index below `n`. -/
def txyxysPre (xs ys : List (List ℚ)) : Nat → Nat
  | 0 => 0
  | n + 1 => txyxysPre xs ys n + txyxysSize xs ys n

/-- Byte offset of the trailing directory table of an XYXYXY file with `n`
traces: 512-byte header plus all subfiles (no shared X block exists in this
layout). -/
def txyxysDirOffset (xs ys : List (List ℚ)) (n : Nat) : Nat :=
  512 + txyxysPre xs ys n

/-! ## Basic facts about the byte primitives -/

theorem natLE_length (w n : Nat) : (natLE w n).length = w := by
  induction w generalizing n with
  | zero => rfl
  | succ w ih => simp [natLE, ih]

theorem leVal_natLE (w n : Nat) (h : n < 256 ^ w) : leVal (natLE w n) = n := by
  induction w generalizing n with
  | zero =>
    have : n = 0 := by simpa using Nat.lt_one_iff.mp (by simpa using h)
    simp [this, natLE, leVal]
  | succ w ih =>
    have hd : n / 256 < 256 ^ w := by
      refine (Nat.div_lt_iff_lt_mul (by norm_num : 0 < 256)).mpr ?_
      calc n < 256 ^ (w + 1) := h
        _ = 256 ^ w * 256 := by ring
    simp [natLE, leVal, ih _ hd, Nat.mod_add_div]

theorem u8_length (n : Nat) : (u8 n).length = 1 := natLE_length 1 n

theorem u16le_length (n : Nat) : (u16le n).length = 2 := natLE_length 2 n

theorem u32le_length (n : Nat) : (u32le n).length = 4 := natLE_length 4 n

theorem i8le_length (z : ℤ) : (i8le z).length = 1 := rfl

theorem i32le_length (z : ℤ) : (i32le z).length = 4 := natLE_length 4 _

theorem leVal_u32le (n : Nat) (h : n < 2 ^ 32) : leVal (u32le n) = n :=
  leVal_natLE 4 n (by norm_num at h ⊢; omega)

/-- `struct.pack("l", n)` and `n.to_bytes(4, "little")` agree on the values
both accept. -/
theorem i32le_ofNat (n : Nat) (h : n < 2 ^ 32) : i32le (n : ℤ) = u32le n := by
  unfold i32le u32le
  congr 1
  have h2 : (0:ℤ) < 2 ^ 32 := by norm_num
  rw [Int.emod_eq_of_lt (by positivity) (by exact_mod_cast h)]
  simp

theorem spcDate_length (d : Option DateTime) : (spcDate d).length = 4 := by
  cases d <;> simp [spcDate, u32le_length]

theorem fit_byte_block_length (f : List Nat) (l : Nat) : (fit_byte_block f l).length = l := by
  unfold fit_byte_block
  by_cases h : l < (f ++ List.replicate (l - f.length) 0).length
  · simp only [if_pos h, List.length_set, List.length_take]
    simp at h ⊢
    omega
  · simp only [if_neg h]
    simp at h ⊢
    omega

theorem headerNumPointsBytes_length (h : SPCHeader) : (headerNumPointsBytes h).length = 4 := by
  unfold headerNumPointsBytes
  split <;> first
  | exact u32le_length _
  | · split
      · exact u32le_length _
      · rfl

theorem generate_subheader_bytes_length (c : FloatCodec) (s : SPCSubheader) :
    (generate_subheader_bytes c s).length = 32 := by
  unfold generate_subheader_bytes
  cases s.end_z <;> cases s.noise_value <;> cases s.num_points <;> cases s.num_coadded <;>
    simp [c.f32_len, u8_length, u16le_length, i8le_length, i32le_length]

theorem generate_header_bytes_length (c : FloatCodec) (h : SPCHeader) :
    (generate_header_bytes c h).length =
      505 + h.calib_plus_one.length + h.sample_inject.length + h.data_mul.length := by
  unfold generate_header_bytes
  set_option maxRecDepth 4096 in
  simp [c.f16_len, c.f32_len, c.f64_len, u8_length, i8le_length, i32le_length,
    headerNumPointsBytes_length, spcDate_length, fit_byte_block_length,
    RES_DESC_LIMIT, SRC_INSTRUMENT_LIMIT, MEMO_LIMIT, AXES_LIMIT, METHOD_FILE_LIMIT,
    SPARE_LIMIT, RESERVE_LIMIT]
  omega

/-- C1: serializing the file header yields exactly 512 bytes and serializing
a subfile header yields exactly 32 bytes; a serialized-length mismatch is
turned into a raised error before the bytes are returned (so a header of any
other length is never observable), and for every record whose raw
internal-use byte fields have their documented widths (1/2/4 — they are not
settable through the writer) serialization succeeds with exactly 512/32
bytes rather than erroring or repairing. -/
theorem header_and_subheader_sizes :
    (∀ (c : FloatCodec) (h : SPCHeader) (bs : List Nat),
       generate_header c h = .ok bs → bs.length = 512) ∧
    (∀ (c : FloatCodec) (s : SPCSubheader) (bs : List Nat),
       generate_subheader c s = .ok bs → bs.length = 32) ∧
    (∀ (c : FloatCodec) (h : SPCHeader),
       h.calib_plus_one.length = 1 → h.sample_inject.length = 2 → h.data_mul.length = 4 →
       generate_header c h = .ok (generate_header_bytes c h)) ∧
    (∀ (c : FloatCodec) (s : SPCSubheader),
       generate_subheader c s = .ok (generate_subheader_bytes c s)) := by
  refine ⟨?_, ?_, ?_, ?_⟩
  · intro c h bs hok
    unfold generate_header at hok
    by_cases hlen : (generate_header_bytes c h).length ≠ 512
    · simp [hlen] at hok
    · simp [hlen] at hok
      rw [← hok]
      exact not_ne_iff.mp hlen
  · intro c s bs hok
    unfold generate_subheader at hok
    by_cases hlen : (generate_subheader_bytes c s).length ≠ 32
    · simp [hlen] at hok
    · simp [hlen] at hok
      rw [← hok]
      exact not_ne_iff.mp hlen
  · intro c h h1 h2 h3
    unfold generate_header
    have := generate_header_bytes_length c h
    rw [h1, h2, h3] at this
    simp [this]
  · intro c s
    unfold generate_subheader
    simp [generate_subheader_bytes_length]

/-- Witness for C1 at a concrete record (default internal-use fields). -/
theorem header_and_subheader_sizes_witness :
    generate_header zeroCodec { file_type := 0, num_points := 3, compress_date := none } =
      .ok (generate_header_bytes zeroCodec
        { file_type := 0, num_points := 3, compress_date := none }) ∧
    (generate_header_bytes zeroCodec
      { file_type := 0, num_points := 3, compress_date := none }).length = 512 :=
  ⟨header_and_subheader_sizes.2.2.1 zeroCodec _ rfl rfl rfl,
   header_and_subheader_sizes.1 zeroCodec _ _
     (header_and_subheader_sizes.2.2.1 zeroCodec _ rfl rfl rfl)⟩

/-- Zeros appended on the right vanish under trailing-null stripping. -/
theorem stripTrailingNulls_append_replicate (bs : List Nat) (k : Nat) :
    stripTrailingNulls (bs ++ List.replicate k 0) = stripTrailingNulls bs := by
  unfold stripTrailingNulls
  rw [List.reverse_append, List.reverse_replicate]
  congr 1
  induction k with
  | zero => simp
  | succ k ih =>
    simp only [List.replicate_succ, List.cons_append, List.dropWhile]
    simp only [decide_eq_true_eq] at ih ⊢
    simp [ih]

/-- Setting the final element of a `take (w)` to zero truncates to `w - 1`
elements plus a zero byte. -/
theorem take_set_last (bs : List Nat) (w : Nat) (hw : 1 ≤ w) (hl : w ≤ bs.length) :
    (bs.take w).set (w - 1) 0 = bs.take (w - 1) ++ [0] := by
  obtain ⟨w', rfl⟩ : ∃ w', w = w' + 1 := ⟨w - 1, by omega⟩
  have hg : bs[w']? = some (bs.get ⟨w', by omega⟩) := by
    rw [List.getElem?_eq_getElem (by omega)]
    rfl
  rw [List.take_succ, hg]
  simp only [Option.toList_some, Nat.add_sub_cancel]
  rw [List.set_append]
  rw [if_neg (by simp)]
  have hlen : w' - (bs.take w').length = 0 := by simp; omega
  rw [hlen]
  congr 1

/-- C6: `fit_byte_block` always returns exactly `w` bytes (`w ≥ 1`): the
input right-padded with zeros when short, the input truncated to `w` with
the final byte forced to zero when long; text no longer than the field
round-trips after trailing-null stripping. -/
theorem fit_byte_block_spec (bs : List Nat) (w : Nat) (hw : 1 ≤ w) :
    (fit_byte_block bs w).length = w ∧
    (bs.length ≤ w → fit_byte_block bs w = bs ++ List.replicate (w - bs.length) 0) ∧
    (w < bs.length → fit_byte_block bs w = bs.take (w - 1) ++ [0]) ∧
    (bs.length ≤ w → stripTrailingNulls (fit_byte_block bs w) = stripTrailingNulls bs) ∧
    (bs.length ≤ w → stripTrailingNulls bs = bs →
      stripTrailingNulls (fit_byte_block bs w) = bs) := by
  have hpad : bs.length ≤ w →
      fit_byte_block bs w = bs ++ List.replicate (w - bs.length) 0 := by
    intro hle
    unfold fit_byte_block
    rw [if_neg (by simp; omega)]
  have htrunc : w < bs.length → fit_byte_block bs w = bs.take (w - 1) ++ [0] := by
    intro hlt
    unfold fit_byte_block
    have h0 : w - bs.length = 0 := by omega
    rw [h0]
    simp only [List.replicate, List.append_nil]
    rw [if_pos (by simpa using hlt)]
    exact take_set_last bs w hw (by omega)
  have hstrip : bs.length ≤ w →
      stripTrailingNulls (fit_byte_block bs w) = stripTrailingNulls bs := by
    intro hle
    rw [hpad hle, stripTrailingNulls_append_replicate]
  exact ⟨fit_byte_block_length bs w, hpad, htrunc, hstrip,
    fun hle hid => by rw [hstrip hle, hid]⟩

/-- Witness for C6 at width 9 (the resolution-descriptor field) on the ASCII
bytes of "Hi". -/
theorem fit_byte_block_spec_witness :
    (fit_byte_block [72, 105] 9).length = 9 ∧
    fit_byte_block [72, 105] 9 = [72, 105] ++ List.replicate 7 0 ∧
    stripTrailingNulls (fit_byte_block [72, 105] 9) = [72, 105] :=
  ⟨(fit_byte_block_spec [72, 105] 9 (by decide)).1,
   (fit_byte_block_spec [72, 105] 9 (by decide)).2.1 (by decide),
   (fit_byte_block_spec [72, 105] 9 (by decide)).2.2.2.2 (by decide) (by decide)⟩

/-- C3: the date packer maps an absent timestamp to the 4-zero-byte
sentinel; a present timestamp packs to the little-endian 4-byte value
`minute | (hour<<6) | (day<<11) | (month<<16) | (year<<20)` (shown both as
the byte encoding and by decoding the bytes back to the value), and the
concrete date 2024-03-15 09:30 packs to exactly that bitfield value. -/
theorem spc_date_packing :
    spcDate none = [0, 0, 0, 0] ∧
    (∀ t : DateTime, spcDateVal t < 2 ^ 32 →
      spcDate (some t) = u32le (spcDateVal t) ∧
      leVal (spcDate (some t)) = spcDateVal t) ∧
    spcDate (some ⟨2024, 3, 15, 9, 30⟩) =
      u32le (30 ||| (9 <<< 6) ||| (15 <<< 11) ||| (3 <<< 16) ||| (2024 <<< 20)) := by
  refine ⟨by decide, ?_, by decide⟩
  intro t ht
  exact ⟨rfl, leVal_u32le _ ht⟩

/-- Witness for C3 at the concrete timestamp of the claim. -/
theorem spc_date_packing_witness :
    spcDate (some ⟨2024, 3, 15, 9, 30⟩) = u32le (spcDateVal ⟨2024, 3, 15, 9, 30⟩) ∧
    leVal (spcDate (some ⟨2024, 3, 15, 9, 30⟩)) = spcDateVal ⟨2024, 3, 15, 9, 30⟩ :=
  spc_date_packing.2.1 ⟨2024, 3, 15, 9, 30⟩ (by decide)

/-- Header serialization succeeds (with exactly 512 bytes) whenever the raw
internal-use byte fields have their documented widths. -/
theorem generate_header_ok (c : FloatCodec) (h : SPCHeader)
    (h1 : h.calib_plus_one.length = 1) (h2 : h.sample_inject.length = 2)
    (h3 : h.data_mul.length = 4) :
    generate_header c h = .ok (generate_header_bytes c h) ∧
    (generate_header_bytes c h).length = 512 := by
  have hlen : (generate_header_bytes c h).length = 512 := by
    rw [generate_header_bytes_length, h1, h2, h3]
  refine ⟨?_, hlen⟩
  unfold generate_header
  simp [hlen]

/-- The header record built by `write_spc_file` always serializes (its
internal-use fields are the dataclass defaults). -/
theorem writeHeader_ok (c : FloatCodec) (w : SPCFileWriter) (y x : NDArray)
    (pc n : Nat) :
    generate_header c (writeHeader w y x pc n) =
      .ok (generate_header_bytes c (writeHeader w y x pc n)) ∧
    (generate_header_bytes c (writeHeader w y x pc n)).length = 512 :=
  generate_header_ok c _ rfl rfl rfl

/-- Closed form of the trace loop when no W-plane values are supplied: it
cannot fail, appends the subfiles of the listed indexes in order, and
extends the directory-pointer list with entries whose offsets advance from
the length of the accumulated output. -/
theorem traceLoop_closed (c : FloatCodec) (ft : Nat) (y x : NDArray) (z : List ℚ)
    (By : List Nat) (pc0 : Nat) :
    ∀ (l : List Nat) (out : List Nat) (ptrs : List (List Nat)),
    traceLoop c ft y x z [] By pc0 l (out, ptrs) =
      .ok (out ++ (l.map (traceSubfile c ft y x z By pc0)).flatten,
           ptrs ++ dirPointersFrom c z (traceSubfile c ft y x z By pc0) out.length l) := by
  intro l
  induction l with
  | nil => intro out ptrs; simp [traceLoop, dirPointersFrom]
  | cons i rest ih =>
    intro out ptrs
    rw [traceLoop]
    rw [if_neg (by simp)]
    rw [ih]
    simp [dirPointersFrom, List.append_assoc]

/-- Every successful run of the trace loop only appends to the output. -/
theorem traceLoop_shape (c : FloatCodec) (ft : Nat) (y x : NDArray) (z wv : List ℚ)
    (By : List Nat) (pc0 : Nat) :
    ∀ (l : List Nat) (out out' : List Nat) (ptrs ptrs' : List (List Nat)),
    traceLoop c ft y x z wv By pc0 l (out, ptrs) = .ok (out', ptrs') →
    ∃ ext, out' = out ++ ext := by
  intro l
  induction l with
  | nil =>
    intro out out' ptrs ptrs' hok
    simp [traceLoop] at hok
    exact ⟨[], by simp [hok.1.symm]⟩
  | cons i rest ih =>
    intro out out' ptrs ptrs' hok
    rw [traceLoop] at hok
    by_cases hwv : wv ≠ []
    · rw [if_pos hwv] at hok
      exact absurd hok (by simp)
    · rw [if_neg hwv] at hok
      obtain ⟨ext, hext⟩ := ih _ _ _ _ hok
      exact ⟨traceSubfile c ft y x z By pc0 i ++ ext, by rw [hext, List.append_assoc]⟩

/-- The directory pointers over a contiguous index range, elementwise: the
entry of index `i` carries offset `base + sizeSum sf i`. -/
theorem dirPointersFrom_range' (c : FloatCodec) (z : List ℚ) (sf : Nat → List Nat)
    (base : Nat) :
    ∀ (k s : Nat),
    dirPointersFrom c z sf (base + sizeSum sf s) (List.range' s k) =
      (List.range' s k).map fun i =>
        u32le (base + sizeSum sf i) ++ u32le (sf i).length ++ c.f32 (zResolve z i) := by
  intro k
  induction k with
  | zero => intro s; simp [dirPointersFrom]
  | succ k ih =>
    intro s
    rw [List.range'_succ]
    rw [dirPointersFrom]
    have : base + sizeSum sf s + (sf s).length = base + sizeSum sf (s + 1) := by
      simp [sizeSum]
      omega
    rw [this, ih (s + 1)]
    simp

/-- Total length of the mapped subfiles over `range n`. -/
theorem flatten_map_range_length (sf : Nat → List Nat) (n : Nat) :
    ((List.range n).map sf).flatten.length = sizeSum sf n := by
  induction n with
  | zero => simp [sizeSum]
  | succ n ih =>
    rw [List.range_succ]
    simp [List.flatten_append, sizeSum, ih]

/-- `range n` splits at `i ≤ n` into `range i` and `range' i (n - i)`. -/
theorem range_split (n i : Nat) (h : i ≤ n) :
    List.range n = List.range i ++ List.range' i (n - i) := by
  rw [List.range_eq_range', List.range_eq_range']
  have h2 := List.range'_append 0 i (n - i) 1
  simp only [one_mul, Nat.zero_add] at h2
  conv_lhs => rw [show n = n - i + i from by omega]
  exact h2.symm

/-- Closed form of `write_spc_file` for the XYXYXY layouts (TMULTI and
TXYXYS set): 512-byte header, the subfiles in index order, the directory
table exactly when TXVALS is also set, then the log section. -/
theorem write_txyxys_closed (c : FloatCodec) (w : SPCFileWriter) (xs ys : List (List ℚ))
    (z : List ℚ) (h4 : w.file_type &&& TMULTI ≠ 0) (h64 : w.file_type &&& TXYXYS ≠ 0) :
    write_spc_file c w (.two ys) (.two xs) z [] =
      .ok (generate_header_bytes c (writeHeader w (.two ys) (.two xs) 0 ys.length)
        ++ ((List.range ys.length).map (traceSubfile c w.file_type (.two ys) (.two xs) z
              (convert_points c (.two ys)) 0)).flatten
        ++ (if w.file_type &&& TXVALS ≠ 0 then
              (dirPointersFrom c z (traceSubfile c w.file_type (.two ys) (.two xs) z
                (convert_points c (.two ys)) 0) 512 (List.range ys.length)).flatten
            else [])
        ++ logPart w) := by
  have hA : ¬ ((NDArray.two xs).size = 0 ∧ w.file_type = TXVALS) := by
    rintro ⟨-, he⟩
    rw [he] at h4
    exact h4 (by decide)
  have hB : ¬ (w.file_type &&& TMULTI = 0) := h4
  have hC : ¬ (w.file_type &&& TMULTI ≠ 0 ∧ w.file_type &&& TXYXYS = 0) := fun h => h64 h.2
  have hD : ¬ (w.file_type &&& TXVALS ≠ 0 ∧ w.file_type &&& TXYXYS = 0) := fun h => h64 h.2
  have hE : ∀ m : Nat, ¬ (([] : List ℚ).length ≠ 0 ∧ m % ([] : List ℚ).length ≠ 0) :=
    fun m h => h.1 rfl
  unfold write_spc_file
  simp only [if_neg hA, if_neg hB, if_neg hC, if_neg hD, if_neg (hE _), pure_bind]
  rw [(writeHeader_ok c w (.two ys) (.two xs) 0 ys.length).1]
  simp only [Except.mapError, Bind.bind, Except.bind, pure_bind]
  rw [traceLoop_closed]
  simp only [List.nil_append, (writeHeader_ok c w (.two ys) (.two xs) 0 ys.length).2]
  rw [logPart]
  by_cases hTX : w.file_type &&& TXVALS ≠ 0 <;>
    by_cases hL : w.log_data ≠ [] ∨ w.log_text ≠ [] <;>
      simp [hTX, hL, h64, List.append_assoc, Pure.pure, Except.pure]
theorem except_mapError_ok {ε ε' α : Type} (f : ε → ε') (a : α) :
    Except.mapError f (.ok a) = .ok a := rfl

theorem except_ok_bind {ε α β : Type} (a : α) (f : α → Except ε β) :
    (Except.ok a >>= f) = f a := rfl

theorem bindLoop_shape (c : FloatCodec) (ft : Nat) (y x : NDArray) (z wv : List ℚ)
    (By : List Nat) (pc : Nat) (l : List Nat) (f0 : List Nat) (ptrs : List (List Nat))
    (post : List Nat × List (List Nat) → List Nat)
    (hpost : ∀ p : List Nat × List (List Nat), ∃ e, post p = p.1 ++ e)
    (out : List Nat)
    (h : (traceLoop c ft y x z wv By pc l (f0, ptrs) >>= fun d => pure (post d)) = .ok out) :
    ∃ ext, out = f0 ++ ext := by
  cases htl : traceLoop c ft y x z wv By pc l (f0, ptrs) with
  | error e => rw [htl] at h; exact Except.noConfusion h
  | ok pair =>
    obtain ⟨p1, p2⟩ := pair
    rw [htl, except_ok_bind] at h
    simp only [Pure.pure, Except.pure, Except.ok.injEq] at h
    obtain ⟨ext, hext⟩ := traceLoop_shape c ft y x z wv By pc l f0 p1 ptrs p2 htl
    obtain ⟨e, he⟩ := hpost (p1, p2)
    exact ⟨ext ++ e, by rw [← h, he, hext, List.append_assoc]⟩

set_option maxHeartbeats 1000000 in
theorem write_ok_hdr_shape (c : FloatCodec) (w : SPCFileWriter) (y x : NDArray)
    (z wv : List ℚ) (out : List Nat)
    (h : write_spc_file c w y x z wv = .ok out) :
    ∃ pc n rest, out = generate_header_bytes c (writeHeader w y x pc n) ++ rest := by
  unfold write_spc_file at h
  by_cases hA : (x.size = 0 ∧ w.file_type = TXVALS)
  · rw [if_pos hA] at h
    exact Except.noConfusion h
  rw [if_neg hA] at h
  simp only [pure_bind] at h
  split at h
  rotate_left
  · split at h
    · exact Except.noConfusion h
    · split at h
      · exact Except.noConfusion h
      · rw [(writeHeader_ok c w y x _ _).1] at h
        rw [except_mapError_ok, except_ok_bind] at h
        obtain ⟨ext, hext⟩ := bindLoop_shape c w.file_type y x z wv (convert_points c y) _ _ _ [] _
          (by
            intro p
            by_cases hL : (w.log_data ≠ [] ∨ w.log_text ≠ [])
            · by_cases hDIR : (w.file_type &&& TXVALS ≠ 0 ∧ w.file_type &&& TXYXYS ≠ 0)
              · exact ⟨_, by rw [if_pos hL, if_pos hDIR]; simp only [List.append_assoc]; rfl⟩
              · exact ⟨_, by rw [if_pos hL, if_neg hDIR]; simp only [List.append_assoc]; rfl⟩
            · by_cases hDIR : (w.file_type &&& TXVALS ≠ 0 ∧ w.file_type &&& TXYXYS ≠ 0)
              · exact ⟨_, by rw [if_neg hL, if_pos hDIR]⟩
              · exact ⟨_, by rw [if_neg hL, if_neg hDIR]; exact (List.append_nil _).symm⟩)
          out h
        by_cases hSH : (w.file_type &&& TXVALS ≠ 0 ∧ w.file_type &&& TXYXYS = 0)
        · rw [if_pos hSH] at hext
          exact ⟨_, _, convert_points c x ++ ext, by rw [hext, List.append_assoc]⟩
        · rw [if_neg hSH] at hext
          exact ⟨_, _, ext, hext⟩
  · split at h
    · exact Except.noConfusion h
    · rw [(writeHeader_ok c w y x _ _).1] at h
      rw [except_mapError_ok, except_ok_bind] at h
      obtain ⟨ext, hext⟩ := bindLoop_shape c w.file_type y x z wv (convert_points c y) _ _ _ [] _
        (by
          intro p
          by_cases hL : (w.log_data ≠ [] ∨ w.log_text ≠ [])
          · by_cases hDIR : (w.file_type &&& TXVALS ≠ 0 ∧ w.file_type &&& TXYXYS ≠ 0)
            · exact ⟨_, by rw [if_pos hL, if_pos hDIR]; simp only [List.append_assoc]; rfl⟩
            · exact ⟨_, by rw [if_pos hL, if_neg hDIR]; simp only [List.append_assoc]; rfl⟩
          · by_cases hDIR : (w.file_type &&& TXVALS ≠ 0 ∧ w.file_type &&& TXYXYS ≠ 0)
            · exact ⟨_, by rw [if_neg hL, if_pos hDIR]⟩
            · exact ⟨_, by rw [if_neg hL, if_neg hDIR]; exact (List.append_nil _).symm⟩)
        out h
      by_cases hSH : (w.file_type &&& TXVALS ≠ 0 ∧ w.file_type &&& TXYXYS = 0)
      · rw [if_pos hSH] at hext
        exact ⟨_, _, convert_points c x ++ ext, by rw [hext, List.append_assoc]⟩
      · rw [if_neg hSH] at hext
        exact ⟨_, _, ext, hext⟩
theorem generate_header_bytes_split248 (c : FloatCodec) (h : SPCHeader) :
    generate_header_bytes c h =
      (u8 h.file_type ++ u8 h.file_version ++ u8 h.experiment_type ++ i8le h.exponent
        ++ headerNumPointsBytes h ++ c.f64 h.first_x ++ c.f64 h.last_x ++ i32le h.num_subfiles
        ++ u8 h.x_units ++ u8 h.y_units ++ u8 h.z_units ++ u8 h.post_disposition
        ++ spcDate h.compress_date ++ fit_byte_block h.res_desc RES_DESC_LIMIT
        ++ fit_byte_block h.src_instrument_desc SRC_INSTRUMENT_LIMIT ++ c.f16 h.peak_point
        ++ List.replicate (4 * SPARE_LIMIT) 0 ++ fit_byte_block h.memo MEMO_LIMIT
        ++ fit_byte_block (List.intercalate [0] h.custom_axes) AXES_LIMIT)
      ++ ([0, 0, 0, 0]
        ++ (i32le h.spectra_mod_flag ++ u8 h.process_code ++ h.calib_plus_one
          ++ h.sample_inject ++ h.data_mul ++ fit_byte_block h.method_file METHOD_FILE_LIMIT
          ++ c.f32 h.z_subfile_inc ++ i32le h.num_w_planes ++ c.f32 h.w_plane_inc
          ++ u8 h.w_units ++ List.replicate RESERVE_LIMIT 0)) := by
  simp [generate_header_bytes, List.append_assoc]

theorem header_logoff_slice (c : FloatCodec) (h : SPCHeader) :
    ((generate_header_bytes c h).drop 248).take 4 = [0, 0, 0, 0] := by
  rw [generate_header_bytes_split248]
  rw [List.drop_left' (by
    set_option maxRecDepth 4096 in
    simp [c.f16_len, c.f64_len, u8_length, i8le_length, i32le_length,
      headerNumPointsBytes_length, spcDate_length, fit_byte_block_length,
      RES_DESC_LIMIT, SRC_INSTRUMENT_LIMIT, MEMO_LIMIT, AXES_LIMIT, SPARE_LIMIT])]
  exact List.take_left' rfl

/-- C5: the persisted log-offset field (bytes 248–251 of the 512-byte
header) is written as four zero bytes for every header record — the source
overwrites the computed `Blog_offset` with `b"\x00\x00\x00\x00"`
unconditionally — and hence for the header of every write call that
produces output, whether or not a log block follows. -/
theorem log_offset_field_always_zero :
    (∀ (c : FloatCodec) (h : SPCHeader),
       ((generate_header_bytes c h).drop 248).take 4 = [0, 0, 0, 0]) ∧
    (∀ (c : FloatCodec) (w : SPCFileWriter) (y x : NDArray) (z wv : List ℚ)
       (out : List Nat), write_spc_file c w y x z wv = .ok out →
       (out.drop 248).take 4 = [0, 0, 0, 0]) := by
  refine ⟨header_logoff_slice, ?_⟩
  intro c w y x z wv out h
  obtain ⟨pc, n, rest, hout⟩ := write_ok_hdr_shape c w y x z wv out h
  rw [hout, List.drop_append_eq_append_drop, List.take_append_eq_append_take]
  have hlen : (generate_header_bytes c (writeHeader w y x pc n)).length = 512 :=
    (writeHeader_ok c w y x pc n).2
  have hdlen : ((generate_header_bytes c (writeHeader w y x pc n)).drop 248).length = 264 := by
    simp [hlen]
  rw [header_logoff_slice, hdlen]
  simp

/-- Witness for C5 (write-level part) at a concrete single-trace write with
a log payload present. -/
theorem log_offset_field_always_zero_witness :
    (((write_spc_file zeroCodec { file_type := 0, log_text := [65] } (.one [1, 2, 3])).toOption.getD
        []).drop 248).take 4 = [0, 0, 0, 0] := by
  have h : write_spc_file zeroCodec { file_type := 0, log_text := [65] } (.one [1, 2, 3]) =
      .ok ((write_spc_file zeroCodec { file_type := 0, log_text := [65] }
        (.one [1, 2, 3])).toOption.getD []) := by
    set_option maxRecDepth 10000 in rfl
  exact log_offset_field_always_zero.2 zeroCodec _ _ _ _ _ _ h
theorem pyRound_half_dist (q : ℚ) : |q - pyRound q| ≤ 1 / 2 := by
  have h0 : (0:ℚ) ≤ q - ⌊q⌋ := by
    have := Int.floor_le q
    linarith
  have h1 : q - ⌊q⌋ < 1 := by
    have := Int.lt_floor_add_one q
    linarith
  unfold pyRound
  split_ifs with hgt hlt heven
  · push_cast
    rw [abs_le]
    constructor <;> linarith
  · rw [abs_le]
    constructor <;> linarith
  · rw [abs_le]
    constructor <;> linarith
  · push_cast
    rw [abs_le]
    constructor <;> linarith

theorem pyRound_nonneg (q : ℚ) (hq : 0 ≤ q) : 0 ≤ pyRound q := by
  have hf : (0:ℤ) ≤ ⌊q⌋ := Int.floor_nonneg.mpr hq
  unfold pyRound
  split_ifs <;> omega

theorem pyRound_mul_nearest (b m : Nat) (hm : 0 < m) (k : ℤ) :
    |(b : ℤ) - m * pyRound ((b : ℚ) / m)| ≤ |(b : ℤ) - m * k| := by
  set r := pyRound ((b : ℚ) / m) with hr
  by_cases hk : k = r
  · rw [hk]
  · have hm' : (0:ℚ) < m := by exact_mod_cast hm
    have hdist : |(b:ℚ) - m * r| ≤ (m:ℚ) / 2 := by
      have h := pyRound_half_dist ((b:ℚ) / m)
      calc |(b:ℚ) - m * r| = |(m:ℚ)| * |(b:ℚ)/m - r| := by
            rw [← abs_mul]
            congr 1
            field_simp
        _ = (m:ℚ) * |(b:ℚ)/m - r| := by rw [abs_of_pos hm']
        _ ≤ (m:ℚ) * (1/2) := mul_le_mul_of_nonneg_left h (le_of_lt hm')
        _ = (m:ℚ) / 2 := by ring
    have hsep : (m:ℚ) ≤ |(m:ℚ) * k - m * r| := by
      have hone : (1:ℚ) ≤ |(k:ℚ) - r| := by
        have h1 : (1:ℤ) ≤ |k - r| := Int.one_le_abs (sub_ne_zero.mpr hk)
        have : ((1:ℤ):ℚ) ≤ ((|k - r| : ℤ) : ℚ) := by exact_mod_cast h1
        rw [Int.cast_abs] at this
        push_cast at this
        simpa using this
      calc (m:ℚ) = m * 1 := by ring
        _ ≤ (m:ℚ) * |(k:ℚ) - r| := mul_le_mul_of_nonneg_left hone (le_of_lt hm')
        _ = |(m:ℚ)| * |(k:ℚ) - r| := by rw [abs_of_pos hm']
        _ = |(m:ℚ) * ((k:ℚ) - r)| := (abs_mul _ _).symm
        _ = |(m:ℚ) * k - m * r| := by ring_nf
    have htri : |(m:ℚ) * k - m * r| ≤ |(b:ℚ) - m * r| + |(b:ℚ) - m * k| := by
      have h1 : (m:ℚ) * k - m * r = ((b:ℚ) - m * r) - ((b:ℚ) - m * k) := by ring
      rw [h1]
      exact abs_sub _ _
    have goalQ : |(b:ℚ) - m * r| ≤ |(b:ℚ) - m * k| := by linarith
    have hcast1 : ((|(b:ℤ) - m * r| : ℤ) : ℚ) = |(b:ℚ) - m * r| := by
      rw [Int.cast_abs]
      push_cast
      ring_nf
    have hcast2 : ((|(b:ℤ) - m * k| : ℤ) : ℚ) = |(b:ℚ) - m * k| := by
      rw [Int.cast_abs]
      push_cast
      ring_nf
    have : ((|(b:ℤ) - m * r| : ℤ) : ℚ) ≤ ((|(b:ℤ) - m * k| : ℤ) : ℚ) := by
      rw [hcast1, hcast2]
      exact goalQ
    exact_mod_cast this

theorem pyRound_scaled_dist (b m : Nat) (hm : 0 < m) :
    |(b:ℚ) - m * pyRound ((b:ℚ)/m)| ≤ (m:ℚ)/2 := by
  have hm' : (0:ℚ) < m := by exact_mod_cast hm
  have h := pyRound_half_dist ((b:ℚ) / m)
  calc |(b:ℚ) - m * pyRound ((b:ℚ)/m)| = |(m:ℚ)| * |(b:ℚ)/m - pyRound ((b:ℚ)/m)| := by
        rw [← abs_mul]
        congr 1
        field_simp
    _ = (m:ℚ) * |(b:ℚ)/m - pyRound ((b:ℚ)/m)| := by rw [abs_of_pos hm']
    _ ≤ (m:ℚ) * (1/2) := mul_le_mul_of_nonneg_left h (le_of_lt hm')
    _ = (m:ℚ) / 2 := by ring

theorem i32le_ofNonneg (z : ℤ) (h0 : 0 ≤ z) (h : z < 2 ^ 32) : i32le z = u32le z.toNat := by
  unfold i32le u32le
  congr 1
  rw [Int.emod_eq_of_lt h0 (by exact_mod_cast h)]

theorem memBlock_bounds (b : Nat) :
    0 ≤ 4096 * pyRound ((b:ℚ)/4096) ∧
    4096 * pyRound ((b:ℚ)/4096) ≤ (b:ℤ) + 2048 := by
  constructor
  · have := pyRound_nonneg ((b:ℚ)/4096) (by positivity)
    omega
  · have hd := pyRound_scaled_dist b 4096 (by norm_num)
    have h1 : (4096:ℚ) * pyRound ((b:ℚ)/4096) - b ≤ 2048 := by
      have := abs_le.mp hd
      linarith [this.1]
    have h2 : ((4096 * pyRound ((b:ℚ)/4096) : ℤ) : ℚ) ≤ ((b:ℤ) : ℚ) + 2048 := by
      push_cast
      linarith
    exact_mod_cast h2

/-- C4: the log block encoder emits exactly 64 bytes whose fields decode to
blockSize = 64 + textLen + dataLen, memBlockSize = 4096 * round(blockSize /
4096) with Python's round — the nearest multiple of 4096 (nearest among all
integer multiples, as the quantified conjunct states), not the ceiling —
textOffset = 64 + dataLen, dataLength = dataLen, diskLength = 0, followed by
44 reserved zero bytes.  The bound keeps every field inside the positive
range of the 4-byte signed encoding, where Python's `struct.pack("l", ...)`
accepts it. -/
theorem log_block_header_spec (log_data log_text : List Nat)
    (hb : 64 + log_text.length + log_data.length < 2 ^ 31 - 2048) :
    (generate_log_header log_data log_text).length = 64 ∧
    (generate_log_header log_data log_text).take 4 =
      u32le (64 + log_text.length + log_data.length) ∧
    leVal ((generate_log_header log_data log_text).take 4) =
      64 + log_text.length + log_data.length ∧
    ((generate_log_header log_data log_text).drop 4).take 4 =
      u32le ((4096 * pyRound (((64 + log_text.length + log_data.length : Nat) : ℚ) / 4096)).toNat) ∧
    (∀ k : ℤ,
      |((64 + log_text.length + log_data.length : Nat) : ℤ) -
          4096 * pyRound (((64 + log_text.length + log_data.length : Nat) : ℚ) / 4096)| ≤
        |((64 + log_text.length + log_data.length : Nat) : ℤ) - 4096 * k|) ∧
    ((generate_log_header log_data log_text).drop 8).take 4 = u32le (64 + log_data.length) ∧
    ((generate_log_header log_data log_text).drop 12).take 4 = u32le log_data.length ∧
    ((generate_log_header log_data log_text).drop 16).take 4 = [0, 0, 0, 0] ∧
    (generate_log_header log_data log_text).drop 20 = List.replicate 44 0 := by
  set B := 64 + log_text.length + log_data.length with hB
  have hsplit : generate_log_header log_data log_text =
      i32le (B : ℤ) ++ (i32le (4096 * pyRound ((B : ℚ) / 4096)) ++ (i32le ((64 : Nat) + log_data.length : ℤ)
        ++ (i32le (log_data.length : ℤ) ++ ([0, 0, 0, 0] ++ List.replicate LOG_RESERVE_LIMIT 0)))) := by
    simp [generate_log_header, List.append_assoc, hB]
  have hBlt : B < 2 ^ 32 := by omega
  have hmem := memBlock_bounds B
  have hmemlt : 4096 * pyRound ((B : ℚ) / 4096) < (2:ℤ) ^ 32 := by
    have h1 : (B:ℤ) + 2048 < 2 ^ 32 := by
      have h2 : (B:ℤ) < (((2:Nat) ^ 31 - 2048 : Nat) : ℤ) := by exact_mod_cast hb
      have h3 : (((2:Nat) ^ 31 - 2048 : Nat) : ℤ) = 2 ^ 31 - 2048 := by norm_num
      omega
    omega
  have hiB : i32le (B : ℤ) = u32le B := i32le_ofNat B hBlt
  have himem : i32le (4096 * pyRound ((B : ℚ) / 4096)) =
      u32le ((4096 * pyRound ((B : ℚ) / 4096)).toNat) :=
    i32le_ofNonneg _ hmem.1 hmemlt
  have hiT : i32le ((64 : Nat) + log_data.length : ℤ) = u32le (64 + log_data.length) := by
    have h1 : ((64 : Nat) + log_data.length : ℤ) = ((64 + log_data.length : Nat) : ℤ) := by push_cast; ring
    rw [h1]
    exact i32le_ofNat _ (by omega)
  have hiD : i32le (log_data.length : ℤ) = u32le log_data.length := i32le_ofNat _ (by omega)
  refine ⟨?_, ?_, ?_, ?_, fun k => pyRound_mul_nearest B 4096 (by norm_num) k, ?_, ?_, ?_, ?_⟩
  · rw [hsplit]
    simp [i32le_length, LOG_RESERVE_LIMIT]
  · rw [hsplit, List.take_append_of_le_length]
    · rw [hiB]
      exact List.take_left' (u32le_length B)
    · simp [i32le_length]
  · rw [hsplit]
    rw [show (i32le (B:ℤ) ++ _).take 4 = u32le B from by
      rw [hiB]
      exact List.take_left' (u32le_length B)]
    exact leVal_u32le B hBlt
  · rw [hsplit, List.drop_left' (i32le_length _), himem]
    exact List.take_left' (u32le_length _)
  · rw [hsplit]
    rw [show (8:Nat) = 4 + 4 from rfl, ← List.drop_drop]
    rw [List.drop_left' (i32le_length _), List.drop_left' (i32le_length _), hiT]
    exact List.take_left' (u32le_length _)
  · rw [hsplit]
    rw [show (12:Nat) = 4 + (4 + 4) from rfl, ← List.drop_drop, ← List.drop_drop]
    rw [List.drop_left' (i32le_length _), List.drop_left' (i32le_length _),
      List.drop_left' (i32le_length _), hiD]
    exact List.take_left' (u32le_length _)
  · rw [hsplit]
    rw [show (16:Nat) = 4 + (4 + (4 + 4)) from rfl, ← List.drop_drop, ← List.drop_drop, ← List.drop_drop]
    rw [List.drop_left' (i32le_length _), List.drop_left' (i32le_length _),
      List.drop_left' (i32le_length _), List.drop_left' (i32le_length _)]
    exact List.take_left' rfl
  · rw [hsplit]
    rw [show (20:Nat) = 4 + (4 + (4 + (4 + 4))) from rfl, ← List.drop_drop, ← List.drop_drop,
      ← List.drop_drop, ← List.drop_drop]
    rw [List.drop_left' (i32le_length _), List.drop_left' (i32le_length _),
      List.drop_left' (i32le_length _), List.drop_left' (i32le_length _),
      List.drop_left' (by rfl : ([0,0,0,0] : List Nat).length = 4)]
    rfl

/-- Witness for C4 at a 2-byte binary payload and 1-byte text payload
(blockSize 67, memBlockSize rounding down to 0). -/
theorem log_block_header_spec_witness :
    (generate_log_header [1, 2] [3]).length = 64 ∧
    (generate_log_header [1, 2] [3]).take 4 = u32le 67 ∧
    ((generate_log_header [1, 2] [3]).drop 4).take 4 =
      u32le ((4096 * pyRound (((67 : Nat) : ℚ) / 4096)).toNat) :=
  ⟨(log_block_header_spec [1, 2] [3] (by norm_num)).1,
   (log_block_header_spec [1, 2] [3] (by norm_num)).2.1,
   (log_block_header_spec [1, 2] [3] (by norm_num)).2.2.2.1⟩

/-- C9 (code bug): for the shared-X multi-trace layout (TMULTI set, TXYXYS
clear) `write_spc_file` invokes `self.calculate_exponent(x_values)`, but
`calculate_exponent` requires the two positional arguments
`(x_values, y_values)`, so every such write raises `TypeError` before any
exponent is computed or any output produced.  The iterative-halving
computation itself is embedded as `calculate_exponent`/`calcExpGo` but is
never successfully invoked. -/
theorem exponent_call_type_error :
    write_spc_file zeroCodec { file_type := TMULTI } (.two [[1, 2], [3, 4]]) (.one []) [] [] =
      .error (.typeError
        "TypeError: calculate_exponent() missing 1 required positional argument: y_values") ∧
    (TMULTI &&& TMULTI ≠ 0 ∧ TMULTI &&& TXYXYS = 0) := by
  constructor
  · rfl
  · decide

/-- C8 (code bug): a supplied W-plane array of length 3 with 9 traces
passes the divisibility validation but the write then crashes with
`TypeError` at `w_values[math.floor(i/w_values(len))]` (`w_values(len)`
calls the ndarray), so the file is never written; with 10 traces the
length-3 W array is rejected before any encoding (`return False`,
modelled as a validation error), as the claim states. -/
theorem w_plane_crash_and_reject :
    write_spc_file zeroCodec { file_type := 196 }
        (.two (List.replicate 9 [(1 : ℚ)])) (.two (List.replicate 9 [(1 : ℚ)])) [] [1, 2, 3] =
      .error (.typeError
        "TypeError: ndarray is not callable in w_values[math.floor(i/w_values(len))]") ∧
    write_spc_file zeroCodec { file_type := 196 }
        (.two (List.replicate 10 [(1 : ℚ)])) (.two (List.replicate 10 [(1 : ℚ)])) [] [1, 2, 3] =
      .error (.validation "w_values should divide evenly into the number of sub files") ∧
    9 % 3 = 0 ∧ 10 % 3 ≠ 0 := by
  refine ⟨?_, ?_, by decide, by decide⟩
  · set_option maxRecDepth 10000 in rfl
  · set_option maxRecDepth 10000 in rfl
/-- Closed form of `write_spc_file` for the single-trace layouts (TMULTI
and TXYXYS clear): 512-byte header, the shared X block when TXVALS is set,
one subfile (32-byte subheader + the full Y payload), then the log
section.  No X/Y extent comparison occurs anywhere on this path. -/
theorem write_one_closed (c : FloatCodec) (w : SPCFileWriter) (yd xd : List ℚ) (z : List ℚ)
    (h4 : w.file_type &&& TMULTI = 0) (h64 : w.file_type &&& TXYXYS = 0)
    (hx : ¬ (xd = [] ∧ w.file_type = TXVALS)) :
    write_spc_file c w (.one yd) (.one xd) z [] =
      .ok (generate_header_bytes c (writeHeader w (.one yd) (.one xd) yd.length 1)
        ++ (if w.file_type &&& TXVALS ≠ 0 then convert_points c (.one xd) else [])
        ++ traceSubfile c w.file_type (.one yd) (.one xd) z (convert_points c (.one yd))
            yd.length 0
        ++ logPart w) := by
  have hA : ¬ ((NDArray.one xd).size = 0 ∧ w.file_type = TXVALS) := by
    rintro ⟨hs, he⟩
    exact hx ⟨List.length_eq_zero.mp hs, he⟩
  have hB : w.file_type &&& TMULTI = 0 := h4
  have hD : ¬ (w.file_type &&& TXVALS ≠ 0 ∧ w.file_type &&& TXYXYS ≠ 0) := fun h => h.2 h64
  have hE : ∀ m : Nat, ¬ (([] : List ℚ).length ≠ 0 ∧ m % ([] : List ℚ).length ≠ 0) :=
    fun m h => h.1 rfl
  unfold write_spc_file
  simp only [if_neg hA, if_pos hB, if_neg hD, if_neg (hE _), pure_bind]
  rw [(writeHeader_ok c w (.one yd) (.one xd) (NDArray.one yd).len 1).1]
  simp only [except_mapError_ok, except_ok_bind]
  rw [traceLoop_closed]
  simp only [except_ok_bind, List.nil_append]
  rw [logPart]
  have hTXsplit : (w.file_type &&& TXVALS ≠ 0 ∧ w.file_type &&& TXYXYS = 0) =
      (w.file_type &&& TXVALS ≠ 0) := by
    simp [h64]
  by_cases hTX : w.file_type &&& TXVALS ≠ 0 <;>
    by_cases hL : w.log_data ≠ [] ∨ w.log_text ≠ [] <;>
      simp [hTX, hL, h64, hTXsplit, List.append_assoc, Pure.pure, Except.pure,
        List.range_succ, List.range_zero, NDArray.len]

/-- C7 (counterexample): a shared-X write whose X has 2 points and whose Y
has 3 points — nonempty arrays with differing trailing extents — is not
rejected: the call completes and produces output. -/
theorem extent_mismatch_accepted :
    (write_spc_file zeroCodec { file_type := TXVALS } (.one [1, 2, 3]) (.one [1, 2]) [] []).isOk
      = true ∧
    ([1, 2] : List ℚ).length ≠ ([1, 2, 3] : List ℚ).length := by
  constructor
  · set_option maxRecDepth 10000 in rfl
  · decide

/-- C7 (amended): `write_spc_file` performs no validation of X/Y trailing
extents — a shared-X call with both arrays nonempty and mismatched lengths
proceeds to encode and write the file rather than reporting a
ValidationError. -/
theorem no_extent_validation (c : FloatCodec) (w : SPCFileWriter) (xd yd z : List ℚ)
    (hft : w.file_type = TXVALS) (hxne : xd ≠ []) (_hyne : yd ≠ [])
    (_hne : xd.length ≠ yd.length) :
    (write_spc_file c w (.one yd) (.one xd) z []).isOk = true := by
  rw [write_one_closed c w yd xd z (by rw [hft]; decide) (by rw [hft]; decide)
    (fun h => hxne h.1)]
  rfl

/-- Witness for the amended C7 at the concrete mismatched input. -/
theorem no_extent_validation_witness :
    (write_spc_file zeroCodec { file_type := TXVALS } (.one [1, 2, 3]) (.one [1, 2]) [] []).isOk
      = true :=
  no_extent_validation zeroCodec { file_type := TXVALS } [1, 2] [1, 2, 3] [] rfl
    (by decide) (by decide) (by decide)
theorem f32_flatten_length (c : FloatCodec) (l : List ℚ) :
    ((l.map c.f32).flatten).length = 4 * l.length := by
  induction l with
  | nil => simp
  | cons a t ih => simp [ih, c.f32_len]; omega

theorem traceSubfile_txyxys (c : FloatCodec) (ft : Nat) (xs ys : List (List ℚ))
    (z : List ℚ) (By : List Nat) (pc0 i : Nat) (h64 : ft &&& TXYXYS ≠ 0) :
    traceSubfile c ft (.two ys) (.two xs) z By pc0 i = txyxysSubfile c xs ys z i := by
  unfold traceSubfile txyxysSubfile
  rw [if_pos h64, if_pos h64]
  simp [NDArray.row, convert_points]

theorem txyxysSubfile_length (c : FloatCodec) (xs ys : List (List ℚ)) (z : List ℚ) (i : Nat) :
    (txyxysSubfile c xs ys z i).length = txyxysSize xs ys i := by
  unfold txyxysSubfile txyxysSize
  rw [List.length_append, List.length_append, generate_subheader_bytes_length,
    f32_flatten_length, f32_flatten_length]

theorem sizeSum_txyxys (c : FloatCodec) (xs ys : List (List ℚ)) (z : List ℚ) (i : Nat) :
    sizeSum (txyxysSubfile c xs ys z) i = txyxysPre xs ys i := by
  induction i with
  | zero => rfl
  | succ i ih => simp [sizeSum, txyxysPre, ih, txyxysSubfile_length]

theorem dirPointersFrom_congr (c : FloatCodec) (z : List ℚ) (sf sf' : Nat → List Nat)
    (l : List Nat) (h : ∀ i ∈ l, sf i = sf' i) :
    ∀ base, dirPointersFrom c z sf base l = dirPointersFrom c z sf' base l := by
  induction l with
  | nil => intro base; rfl
  | cons i rest ih =>
    intro base
    unfold dirPointersFrom
    rw [h i (by simp)]
    rw [ih (fun j hj => h j (by simp [hj]))]

theorem dirPointersFrom_range (c : FloatCodec) (z : List ℚ) (sf : Nat → List Nat) (n : Nat) :
    dirPointersFrom c z sf 512 (List.range n) =
      (List.range n).map fun i =>
        u32le (512 + sizeSum sf i) ++ u32le (sf i).length ++ c.f32 (zResolve z i) := by
  have h := dirPointersFrom_range' c z sf 512 n 0
  simpa [List.range_eq_range', sizeSum] using h

theorem txyxysPre_eq_sum (xs ys : List (List ℚ)) (n : Nat) :
    txyxysPre xs ys n = n * 32 +
      ((List.range n).map fun idx =>
        (xs.getD idx []).length * 4 + (ys.getD idx []).length * 4).sum := by
  induction n with
  | zero => rfl
  | succ n ih =>
    rw [List.range_succ]
    simp [txyxysPre, ih, txyxysSize]
    omega

theorem calc_log_offset_txyxys (ft n : Nat) (xs ys : List (List ℚ))
    (h4 : ft &&& TMULTI ≠ 0) (h64 : ft &&& TXYXYS ≠ 0) (hlen : xs.length = n) :
    calc_log_offset ft n (.two xs) (.two ys) = 512 + txyxysPre xs ys n := by
  unfold calc_log_offset
  rw [if_pos (show ft &&& TMULTI ≠ 0 ∧ ft &&& TXYXYS ≠ 0 from ⟨h4, h64⟩)]
  rw [if_neg (show ¬ (ft &&& TXVALS ≠ 0 ∧ ft &&& TXYXYS = 0) from fun h => h64 h.2)]
  simp only [NDArray.len, NDArray.row, hlen]
  rw [txyxysPre_eq_sum]
  omega

theorem txyxys_write_anatomy (c : FloatCodec) (w : SPCFileWriter) (xs ys : List (List ℚ))
    (z : List ℚ) (out : List Nat)
    (h4 : w.file_type &&& TMULTI ≠ 0) (h128 : w.file_type &&& TXVALS ≠ 0)
    (h64 : w.file_type &&& TXYXYS ≠ 0)
    (hok : write_spc_file c w (.two ys) (.two xs) z [] = .ok out) :
    out = generate_header_bytes c (writeHeader w (.two ys) (.two xs) 0 ys.length)
      ++ ((List.range ys.length).map (txyxysSubfile c xs ys z)).flatten
      ++ ((List.range ys.length).map fun i =>
            u32le (512 + txyxysPre xs ys i) ++ u32le (txyxysSize xs ys i)
              ++ c.f32 (zResolve z i)).flatten
      ++ logPart w := by
  rw [write_txyxys_closed c w xs ys z h4 h64] at hok
  have hout := (Except.ok.injEq _ _).mp hok.symm
  rw [hout]
  have hmapeq : (List.range ys.length).map (traceSubfile c w.file_type (.two ys) (.two xs) z
      (convert_points c (.two ys)) 0) = (List.range ys.length).map (txyxysSubfile c xs ys z) :=
    List.map_congr_left fun i _ => traceSubfile_txyxys c w.file_type xs ys z _ 0 i h64
  rw [if_pos h128]
  rw [dirPointersFrom_congr c z _ (txyxysSubfile c xs ys z) (List.range ys.length)
    (fun i _ => traceSubfile_txyxys c w.file_type xs ys z _ 0 i h64)]
  rw [dirPointersFrom_range]
  rw [hmapeq]
  congr 2
  congr 1
  apply List.map_congr_left
  intro i _
  rw [sizeSum_txyxys, txyxysSubfile_length]
theorem header_numPoints_slice (c : FloatCodec) (h : SPCHeader) :
    ((generate_header_bytes c h).drop 4).take 4 = headerNumPointsBytes h := by
  have hsplit : generate_header_bytes c h =
      (u8 h.file_type ++ u8 h.file_version ++ u8 h.experiment_type ++ i8le h.exponent)
        ++ (headerNumPointsBytes h
          ++ (c.f64 h.first_x ++ c.f64 h.last_x ++ i32le h.num_subfiles
            ++ u8 h.x_units ++ u8 h.y_units ++ u8 h.z_units ++ u8 h.post_disposition
            ++ spcDate h.compress_date ++ fit_byte_block h.res_desc RES_DESC_LIMIT
            ++ fit_byte_block h.src_instrument_desc SRC_INSTRUMENT_LIMIT ++ c.f16 h.peak_point
            ++ List.replicate (4 * SPARE_LIMIT) 0 ++ fit_byte_block h.memo MEMO_LIMIT
            ++ fit_byte_block (List.intercalate [0] h.custom_axes) AXES_LIMIT
            ++ [0, 0, 0, 0] ++ i32le h.spectra_mod_flag ++ u8 h.process_code
            ++ h.calib_plus_one ++ h.sample_inject ++ h.data_mul
            ++ fit_byte_block h.method_file METHOD_FILE_LIMIT
            ++ c.f32 h.z_subfile_inc ++ i32le h.num_w_planes ++ c.f32 h.w_plane_inc
            ++ u8 h.w_units ++ List.replicate RESERVE_LIMIT 0)) := by
    simp [generate_header_bytes, List.append_assoc]
  rw [hsplit, List.drop_left' (by simp [u8_length, i8le_length])]
  exact List.take_left' (headerNumPointsBytes_length h)

theorem headerNumPointsBytes_dir (h : SPCHeader)
    (h4 : h.file_type &&& TMULTI ≠ 0) (h128 : h.file_type &&& TXVALS ≠ 0)
    (h64 : h.file_type &&& TXYXYS ≠ 0) :
    headerNumPointsBytes h =
      u32le (calc_log_offset h.file_type h.num_subfiles h.x_values h.y_values) := by
  unfold headerNumPointsBytes
  rw [if_pos ⟨h4, h128, h64⟩]

theorem headerNumPointsBytes_plain (h : SPCHeader) (h64 : h.file_type &&& TXYXYS = 0) :
    headerNumPointsBytes h = u32le h.num_points := by
  unfold headerNumPointsBytes
  rw [if_neg (fun hh => hh.2.2 h64), if_pos h64]

theorem headerNumPointsBytes_xy_nodir (h : SPCHeader)
    (h64 : h.file_type &&& TXYXYS ≠ 0) (h128 : h.file_type &&& TXVALS = 0) :
    headerNumPointsBytes h = [0, 0, 0, 0] := by
  unfold headerNumPointsBytes
  rw [if_neg (fun hh => hh.2.1 h128), if_neg h64]

theorem slice4_of_hdr (hdr rest out : List Nat) (hout : out = hdr ++ rest)
    (hlen : hdr.length = 512) : (out.drop 4).take 4 = (hdr.drop 4).take 4 := by
  subst hout
  rw [List.drop_append_eq_append_drop, List.take_append_eq_append_take]
  have h1 : (4:Nat) - hdr.length = 0 := by omega
  have h2 : (hdr.drop 4).length = 508 := by simp [hlen]
  rw [h1, h2]
  simp

theorem sizeSum_const12 (f : Nat → List Nat) (hf : ∀ j, (f j).length = 12) (i : Nat) :
    sizeSum f i = 12 * i := by
  induction i with
  | zero => rfl
  | succ i ih => simp [sizeSum, ih, hf]; omega

theorem flatten_map_drop_entry (f : Nat → List Nat) (hf : ∀ j, (f j).length = 12)
    (n i : Nat) (hi : i < n) :
    ∀ tail : List Nat,
    ((((List.range n).map f).flatten ++ tail).drop (12 * i)).take 12 = f i := by
  intro tail
  rw [range_split n i (le_of_lt hi)]
  obtain ⟨m, hm⟩ : ∃ m, n - i = m + 1 := ⟨n - i - 1, by omega⟩
  rw [hm, List.range'_succ]
  simp only [List.map_append, List.flatten_append, List.map_cons, List.flatten_cons]
  have hlen : (((List.range i).map f).flatten).length = 12 * i := by
    rw [flatten_map_range_length]
    exact sizeSum_const12 f hf i
  rw [List.append_assoc, List.drop_left' hlen]
  rw [List.append_assoc]
  exact List.take_left' (hf i)
/-- C2: the 4-byte numPoints field (header bytes 4–7).  For an
independent-X multi-trace write (TMULTI, TXVALS, TXYXYS all set) it holds
the byte offset at which the trailing directory table begins — shown by
decomposing the output at that offset: everything before it is the header
plus the subfiles, everything from it on is the directory entries followed
by the log section.  For layouts without per-trace X (TXYXYS clear; shown
for the single-trace layouts — the multi-trace shared-X layout never
completes a write, see the C9 theorem) it holds the shared Y point count.
For a TXYXYS layout in which no directory is emitted (TXVALS clear) it is
written as zero and the output indeed carries no directory table. -/
theorem header_numPoints_semantics :
    (∀ (c : FloatCodec) (w : SPCFileWriter) (xs ys : List (List ℚ)) (z : List ℚ)
       (out : List Nat),
       w.file_type &&& TMULTI ≠ 0 → w.file_type &&& TXVALS ≠ 0 → w.file_type &&& TXYXYS ≠ 0 →
       xs.length = ys.length →
       txyxysDirOffset xs ys ys.length < 2 ^ 32 →
       write_spc_file c w (.two ys) (.two xs) z [] = .ok out →
       (out.drop 4).take 4 = u32le (txyxysDirOffset xs ys ys.length) ∧
       out.take (txyxysDirOffset xs ys ys.length) =
         generate_header_bytes c (writeHeader w (.two ys) (.two xs) 0 ys.length)
           ++ ((List.range ys.length).map (txyxysSubfile c xs ys z)).flatten ∧
       out.drop (txyxysDirOffset xs ys ys.length) =
         ((List.range ys.length).map fun i =>
             u32le (512 + txyxysPre xs ys i) ++ u32le (txyxysSize xs ys i)
               ++ c.f32 (zResolve z i)).flatten
           ++ logPart w) ∧
    (∀ (c : FloatCodec) (w : SPCFileWriter) (yd xd : List ℚ) (z : List ℚ) (out : List Nat),
       w.file_type &&& TMULTI = 0 → w.file_type &&& TXYXYS = 0 →
       write_spc_file c w (.one yd) (.one xd) z [] = .ok out →
       (out.drop 4).take 4 = u32le yd.length) ∧
    (∀ (c : FloatCodec) (w : SPCFileWriter) (xs ys : List (List ℚ)) (z : List ℚ)
       (out : List Nat),
       w.file_type &&& TMULTI ≠ 0 → w.file_type &&& TXYXYS ≠ 0 → w.file_type &&& TXVALS = 0 →
       write_spc_file c w (.two ys) (.two xs) z [] = .ok out →
       (out.drop 4).take 4 = [0, 0, 0, 0] ∧
       out = generate_header_bytes c (writeHeader w (.two ys) (.two xs) 0 ys.length)
         ++ ((List.range ys.length).map (txyxysSubfile c xs ys z)).flatten ++ logPart w) := by
  refine ⟨?_, ?_, ?_⟩
  · intro c w xs ys z out h4 h128 h64 hlen hD hok
    have hanat := txyxys_write_anatomy c w xs ys z out h4 h128 h64 hok
    have hhdr := writeHeader_ok c w (.two ys) (.two xs) 0 ys.length
    have hsf : (((List.range ys.length).map (txyxysSubfile c xs ys z)).flatten).length =
        txyxysPre xs ys ys.length := by
      rw [flatten_map_range_length]
      exact sizeSum_txyxys c xs ys z ys.length
    have hpre : (generate_header_bytes c (writeHeader w (.two ys) (.two xs) 0 ys.length)
        ++ ((List.range ys.length).map (txyxysSubfile c xs ys z)).flatten).length =
        txyxysDirOffset xs ys ys.length := by
      rw [List.length_append, hhdr.2, hsf]
      rfl
    have hassoc : out =
        generate_header_bytes c (writeHeader w (.two ys) (.two xs) 0 ys.length)
          ++ (((List.range ys.length).map (txyxysSubfile c xs ys z)).flatten
            ++ (((List.range ys.length).map fun i =>
                  u32le (512 + txyxysPre xs ys i) ++ u32le (txyxysSize xs ys i)
                    ++ c.f32 (zResolve z i)).flatten
              ++ logPart w)) := by
      rw [hanat]
      simp [List.append_assoc]
    have hassoc2 : out =
        (generate_header_bytes c (writeHeader w (.two ys) (.two xs) 0 ys.length)
          ++ ((List.range ys.length).map (txyxysSubfile c xs ys z)).flatten)
          ++ (((List.range ys.length).map fun i =>
                u32le (512 + txyxysPre xs ys i) ++ u32le (txyxysSize xs ys i)
                  ++ c.f32 (zResolve z i)).flatten
            ++ logPart w) := by
      rw [hanat]
      simp [List.append_assoc]
    refine ⟨?_, ?_, ?_⟩
    · rw [slice4_of_hdr _ _ out hassoc hhdr.2, header_numPoints_slice]
      rw [headerNumPointsBytes_dir _ h4 h128 h64]
      have : calc_log_offset (writeHeader w (.two ys) (.two xs) 0 ys.length).file_type
          (writeHeader w (.two ys) (.two xs) 0 ys.length).num_subfiles
          (writeHeader w (.two ys) (.two xs) 0 ys.length).x_values
          (writeHeader w (.two ys) (.two xs) 0 ys.length).y_values =
          512 + txyxysPre xs ys ys.length := by
        show calc_log_offset w.file_type ys.length (.two xs) (.two ys) = _
        exact calc_log_offset_txyxys w.file_type ys.length xs ys h4 h64 hlen
      rw [this]
      rfl
    · rw [hassoc2]
      exact List.take_left' hpre
    · rw [hassoc2]
      exact List.drop_left' hpre
  · intro c w yd xd z out h4 h64 hok
    by_cases hx : (xd = [] ∧ w.file_type = TXVALS)
    · exfalso
      unfold write_spc_file at hok
      rw [if_pos (by simpa [NDArray.size, hx.1] using hx.2)] at hok
      exact Except.noConfusion hok
    · rw [write_one_closed c w yd xd z h4 h64 hx] at hok
      have hout := (Except.ok.injEq _ _).mp hok.symm
      have hhdr := writeHeader_ok c w (.one yd) (.one xd) yd.length 1
      have hassoc : out =
          generate_header_bytes c (writeHeader w (.one yd) (.one xd) yd.length 1)
            ++ ((if w.file_type &&& TXVALS ≠ 0 then convert_points c (.one xd) else [])
              ++ (traceSubfile c w.file_type (.one yd) (.one xd) z
                  (convert_points c (.one yd)) yd.length 0
                ++ logPart w)) := by
        rw [hout]
        simp [List.append_assoc]
      rw [slice4_of_hdr _ _ out hassoc hhdr.2, header_numPoints_slice]
      rw [headerNumPointsBytes_plain _ h64]
      rfl
  · intro c w xs ys z out h4 h64 h128 hok
    rw [write_txyxys_closed c w xs ys z h4 h64] at hok
    have hout := (Except.ok.injEq _ _).mp hok.symm
    rw [if_neg (by simp [h128])] at hout
    have hhdr := writeHeader_ok c w (.two ys) (.two xs) 0 ys.length
    have hmapeq : (List.range ys.length).map (traceSubfile c w.file_type (.two ys) (.two xs) z
        (convert_points c (.two ys)) 0) = (List.range ys.length).map (txyxysSubfile c xs ys z) :=
      List.map_congr_left fun i _ => traceSubfile_txyxys c w.file_type xs ys z _ 0 i h64
    rw [hmapeq] at hout
    refine ⟨?_, ?_⟩
    · have hassoc : out =
          generate_header_bytes c (writeHeader w (.two ys) (.two xs) 0 ys.length)
            ++ (((List.range ys.length).map (txyxysSubfile c xs ys z)).flatten ++ logPart w) := by
        rw [hout]
        simp [List.append_assoc]
      rw [slice4_of_hdr _ _ out hassoc hhdr.2, header_numPoints_slice]
      rw [headerNumPointsBytes_xy_nodir _ h64 h128]
    · rw [hout]
      simp [List.append_assoc]

/-- Witness for C2 at a concrete 2-trace XYXYXY write (directory offset
512 + 44 + 40 = 596). -/
theorem header_numPoints_semantics_witness :
    (((write_spc_file zeroCodec { file_type := 196 } (.two [[1, 2], [3]])
        (.two [[1], [2]])).toOption.getD []).drop 4).take 4 =
      u32le (txyxysDirOffset [[1], [2]] [[1, 2], [3]] 2) ∧
    txyxysDirOffset [[1], [2]] [[1, 2], [3]] 2 = 596 := by
  have h : write_spc_file zeroCodec { file_type := 196 } (.two [[1, 2], [3]]) (.two [[1], [2]]) =
      .ok ((write_spc_file zeroCodec { file_type := 196 } (.two [[1, 2], [3]])
        (.two [[1], [2]])).toOption.getD []) := by
    set_option maxRecDepth 10000 in rfl
  refine ⟨?_, by decide⟩
  exact (header_numPoints_semantics.1 zeroCodec _ [[1], [2]] [[1, 2], [3]] [] _
    (by decide) (by decide) (by decide) (by decide) (by decide) h).1
/-- C10: in an independent-X multi-trace write, the emitted directory table
carries one 12-byte entry per trace in subfile-index order: entry `i`
(12 bytes at position dirOffset + 12·i of the output) is
`(offset u32, size u32, z f32)` with offset `512 + txyxysPre xs ys i`;
dropping the output to exactly that offset and taking exactly that size
yields trace `i`'s subfile, whose first 32 bytes are its subfile header;
the size is the subheader plus the X and Y payloads (4 bytes per sample);
and the z field is trace `i`'s resolved Z value.  The in-range hypothesis
keeps all u32 fields where Python `to_bytes(4, ...)` accepts them. -/
theorem directory_table_entries (c : FloatCodec) (w : SPCFileWriter)
    (xs ys : List (List ℚ)) (z : List ℚ) (out : List Nat) (i : Nat)
    (h4 : w.file_type &&& TMULTI ≠ 0) (h128 : w.file_type &&& TXVALS ≠ 0)
    (h64 : w.file_type &&& TXYXYS ≠ 0) (_hlen : xs.length = ys.length)
    (_hD : txyxysDirOffset xs ys ys.length < 2 ^ 32) (hi : i < ys.length)
    (hok : write_spc_file c w (.two ys) (.two xs) z [] = .ok out) :
    ((out.drop (txyxysDirOffset xs ys ys.length)).drop (12 * i)).take 12 =
      u32le (512 + txyxysPre xs ys i) ++ u32le (txyxysSize xs ys i)
        ++ c.f32 (zResolve z i) ∧
    (out.drop (512 + txyxysPre xs ys i)).take (txyxysSize xs ys i) =
      txyxysSubfile c xs ys z i ∧
    (txyxysSubfile c xs ys z i).take 32 =
      generate_subheader_bytes c
        { start_z := zResolve z i, sub_index := i,
          num_points := some (((ys.getD i []).length : Nat) : ℤ), w_axis_value := 0 } ∧
    txyxysSize xs ys i = 32 + 4 * (xs.getD i []).length + 4 * (ys.getD i []).length := by
  have hanat := txyxys_write_anatomy c w xs ys z out h4 h128 h64 hok
  have hhdr := writeHeader_ok c w (.two ys) (.two xs) 0 ys.length
  have hsf : (((List.range ys.length).map (txyxysSubfile c xs ys z)).flatten).length =
      txyxysPre xs ys ys.length := by
    rw [flatten_map_range_length]
    exact sizeSum_txyxys c xs ys z ys.length
  have hpre : (generate_header_bytes c (writeHeader w (.two ys) (.two xs) 0 ys.length)
      ++ ((List.range ys.length).map (txyxysSubfile c xs ys z)).flatten).length =
      txyxysDirOffset xs ys ys.length := by
    rw [List.length_append, hhdr.2, hsf]
    rfl
  have hassoc2 : out =
      (generate_header_bytes c (writeHeader w (.two ys) (.two xs) 0 ys.length)
        ++ ((List.range ys.length).map (txyxysSubfile c xs ys z)).flatten)
        ++ (((List.range ys.length).map fun j =>
              u32le (512 + txyxysPre xs ys j) ++ u32le (txyxysSize xs ys j)
                ++ c.f32 (zResolve z j)).flatten
          ++ logPart w) := by
    rw [hanat]
    simp [List.append_assoc]
  refine ⟨?_, ?_, ?_, rfl⟩
  · rw [hassoc2, List.drop_left' hpre]
    exact flatten_map_drop_entry _
      (fun j => by simp [u32le_length, c.f32_len]) ys.length i hi (logPart w)
  · obtain ⟨m, hm⟩ : ∃ m, ys.length - i = m + 1 := ⟨ys.length - i - 1, by omega⟩
    have hsplitSF : ((List.range ys.length).map (txyxysSubfile c xs ys z)).flatten =
        ((List.range i).map (txyxysSubfile c xs ys z)).flatten
          ++ (txyxysSubfile c xs ys z i
            ++ ((List.range' (i + 1) m).map (txyxysSubfile c xs ys z)).flatten) := by
      rw [range_split ys.length i (le_of_lt hi), hm, List.range'_succ]
      simp [List.flatten_append]
    have hsfa : (((List.range i).map (txyxysSubfile c xs ys z)).flatten).length =
        txyxysPre xs ys i := by
      rw [flatten_map_range_length]
      exact sizeSum_txyxys c xs ys z i
    have hassoc3 : out =
        (generate_header_bytes c (writeHeader w (.two ys) (.two xs) 0 ys.length)
          ++ ((List.range i).map (txyxysSubfile c xs ys z)).flatten)
          ++ (txyxysSubfile c xs ys z i
            ++ (((List.range' (i + 1) m).map (txyxysSubfile c xs ys z)).flatten
              ++ (((List.range ys.length).map fun j =>
                    u32le (512 + txyxysPre xs ys j) ++ u32le (txyxysSize xs ys j)
                      ++ c.f32 (zResolve z j)).flatten
                ++ logPart w))) := by
      rw [hanat, hsplitSF]
      simp [List.append_assoc]
    have hprelen : (generate_header_bytes c (writeHeader w (.two ys) (.two xs) 0 ys.length)
        ++ ((List.range i).map (txyxysSubfile c xs ys z)).flatten).length =
        512 + txyxysPre xs ys i := by
      rw [List.length_append, hhdr.2, hsfa]
    rw [hassoc3, List.drop_left' hprelen]
    exact List.take_left' (txyxysSubfile_length c xs ys z i)
  · unfold txyxysSubfile
    rw [List.append_assoc]
    exact List.take_left' (generate_subheader_bytes_length c _)

/-- Witness for C10: the second trace (index 1) of the concrete 2-trace
XYXYXY write of the C2 witness. -/
theorem directory_table_entries_witness :
    ((((write_spc_file zeroCodec { file_type := 196 } (.two [[1, 2], [3]])
          (.two [[1], [2]])).toOption.getD []).drop
        (txyxysDirOffset [[1], [2]] [[1, 2], [3]] 2)).drop 12).take 12 =
      u32le (512 + txyxysPre [[1], [2]] [[1, 2], [3]] 1)
        ++ u32le (txyxysSize [[1], [2]] [[1, 2], [3]] 1)
        ++ zeroCodec.f32 (zResolve [] 1) ∧
    txyxysSize [[1], [2]] [[1, 2], [3]] 1 = 32 + 4 * 1 + 4 * 1 := by
  have h : write_spc_file zeroCodec { file_type := 196 } (.two [[1, 2], [3]]) (.two [[1], [2]]) =
      .ok ((write_spc_file zeroCodec { file_type := 196 } (.two [[1, 2], [3]])
        (.two [[1], [2]])).toOption.getD []) := by
    set_option maxRecDepth 10000 in rfl
  refine ⟨?_, by decide⟩
  exact (directory_table_entries zeroCodec _ [[1], [2]] [[1, 2], [3]] [] _ 1
    (by decide) (by decide) (by decide) (by decide) (by decide) (by decide) h).1
